import Mathlib

/-!
Verification of the natural-language specification of the yuzu kernel SVC
process-memory operations (src/core/hle/kernel/svc/svc_process_memory.cpp)
against a shallow embedding of that file.

The five SVC operations (SetProcessMemoryPermission, MapProcessMemory,
UnmapProcessMemory, MapProcessCodeMemory, UnmapProcessCodeMemory) are
translated directly from the source.  The kernel primitives they call
(KPageTable, KPageGroup, KHandleTable) are not part of the sources and are
modelled from the specification; each such definition carries a doc comment
starting with "Modelled from the spec:".
-/

namespace Kern

/-- Page size used by the kernel (4 KiB). -/
def PageSize : Nat := 4096

/-- Modulus of unsigned 64-bit arithmetic. -/
def U64 : Nat := 2 ^ 64

/-- u64 addition with wraparound, as computed by the C++ expression a + b on u64. -/
def wadd (a b : Nat) : Nat := (a + b) % U64

/-- Raw bit pattern of Svc::MemoryPermission::None. -/
def PermNone : Nat := 0

/-- Raw bit pattern of Svc::MemoryPermission::Read. -/
def PermRead : Nat := 1

/-- Raw bit pattern of Svc::MemoryPermission::ReadWrite. -/
def PermReadWrite : Nat := 3

/-- Raw bit pattern of Svc::MemoryPermission::ReadExecute. -/
def PermReadExecute : Nat := 5

/-- Embeds IsValidProcessMemoryPermission (svc_process_memory.cpp:15-25):
accepts exactly None, Read, ReadWrite and ReadExecute. -/
def IsValidProcessMemoryPermission (perm : Nat) : Bool :=
  perm == PermNone || perm == PermRead || perm == PermReadWrite || perm == PermReadExecute

/-- Result codes returned by the five operations. -/
inductive Result where
  | Success
  | InvalidAddress
  | InvalidSize
  | InvalidCurrentMemory
  | InvalidNewMemoryPermission
  | InvalidHandle
  | InvalidMemoryRegion
  deriving DecidableEq, Repr

/-- Memory states of mapped pages relevant to this slice (spec section 3:
Free is represented by an unmapped page, so it has no constructor here). -/
inductive KMemoryState where
  | Code
  | CodeData
  | SharedCode
  | CodeOut
  deriving DecidableEq, Repr

/-- Modelled from the spec: which states carry the FlagCanMapProcess mask bit
used by MapProcessMemory to select eligible source pages (spec sections 3
and 4.1: code-class states are the process-mappable ones; a shared-code
alias or a mapped-out region is not itself process-mappable). -/
def KMemoryState.canMapProcess : KMemoryState → Bool
  | .Code => true
  | .CodeData => true
  | .SharedCode => false
  | .CodeOut => false

/-- Modelled from the spec: region classes whose user permission may be
rewritten by SetProcessMemoryPermission (spec section 4.1). -/
def KMemoryState.canChangePermission : KMemoryState → Bool
  | .Code => true
  | .CodeData => true
  | .SharedCode => false
  | .CodeOut => false

/-- Modelled from the spec: states usable as the source of a code mapping
(spec section 4.1, MapCodeMemory: the source must be fully in a
mappable-as-code-source state). -/
def KMemoryState.canBeCodeSource : KMemoryState → Bool
  | .CodeData => true
  | _ => false

/-- Page-table level permissions installed on mapped pages. -/
inductive KMemoryPermission where
  | None
  | UserRead
  | UserReadWrite
  | UserReadExecute
  deriving DecidableEq, Repr

/-- Conversion of a raw Svc permission pattern to the page-table permission. -/
def ConvertToKMemoryPermission (perm : Nat) : KMemoryPermission :=
  if perm = PermNone then .None
  else if perm = PermRead then .UserRead
  else if perm = PermReadWrite then .UserReadWrite
  else .UserReadExecute

/-- Bookkeeping record of one mapped page: state, permission, attribute mask
(0 is the unborrowed None value) and the identity of the backing physical
block. -/
structure PageInfo where
  state : KMemoryState
  perm : KMemoryPermission
  attr : Nat
  block : Nat
  deriving DecidableEq, Repr

/-- Modelled from the spec: the per-process address space (KPageTable is not
part of the sources).  It owns fixed bounds established at construction
(spec section 4.1): the reserved virtual extent, the ASLR sub-region and the
band permitted to host SharedCode mappings, plus the per-page bookkeeping
map (page index to record; an unmapped page maps to none). -/
structure KPageTable where
  asStart : Nat
  asEnd : Nat
  aslrStart : Nat
  aslrEnd : Nat
  scStart : Nat
  scEnd : Nat
  pages : Nat → Option PageInfo

/-- All page indices base, base+1, ..., base+n-1 satisfy the test f. -/
def allIdx (base n : Nat) (f : Nat → Bool) : Bool :=
  (List.range n).all fun k => f (base + k)

/-- Physical block id backing page index i (0 when the page is unmapped; only
used on ranges known to be mapped). -/
def blockAt (pt : KPageTable) (i : Nat) : Nat :=
  match pt.pages i with
  | some info => info.block
  | none => 0

/-- Ordered sequence of backing block ids of n pages starting at page index
base: the physical identity a page group built over that range would carry. -/
def blockIdx (base n : Nat) (pt : KPageTable) : List Nat :=
  (List.range n).map fun k => blockAt pt (base + k)

/-- Modelled from the spec: KPageTable::Contains (spec section 4.1): the
entire range lies within the reserved virtual extent and is currently
mapped. -/
def KPageTable.Contains (pt : KPageTable) (address size : Nat) : Bool :=
  decide (pt.asStart ≤ address) && decide (address + size ≤ pt.asEnd) &&
    allIdx (address / PageSize) (size / PageSize) (fun i => (pt.pages i).isSome)

/-- Modelled from the spec: KPageTable::IsInsideAddressSpace (spec section
4.1): a pure range-containment check against the fixed address-space
bounds. -/
def KPageTable.IsInsideAddressSpace (pt : KPageTable) (address size : Nat) : Bool :=
  decide (pt.asStart ≤ address) && decide (address + size ≤ pt.asEnd)

/-- Modelled from the spec: KPageTable::IsInsideASLRRegion (spec section
4.1): a pure range-containment check against the fixed ASLR bounds. -/
def KPageTable.IsInsideASLRRegion (pt : KPageTable) (address size : Nat) : Bool :=
  decide (pt.aslrStart ≤ address) && decide (address + size ≤ pt.aslrEnd)

/-- Start of the sub-region of the address space permitted to host a given
state (SharedCode has its dedicated band; code-class states live in the
ASLR region). -/
def KPageTable.regionStart (pt : KPageTable) : KMemoryState → Nat
  | .SharedCode => pt.scStart
  | _ => pt.aslrStart

/-- End of the sub-region of the address space permitted to host a given
state. -/
def KPageTable.regionEnd (pt : KPageTable) : KMemoryState → Nat
  | .SharedCode => pt.scEnd
  | _ => pt.aslrEnd

/-- Modelled from the spec: KPageTable::CanContain (spec section 4.1): the
range lies within the sub-region of the address space permitted to host the
target state.  The spec sentence additionally asks the range to be free;
that clause is inconsistent with the spec contract of UnmapProcessMemory
(section 4.1, which checks CanContain on a currently mapped destination) and
with the round-trip law of section 8, so the freeness test is kept where the
MapPageGroup contract places it and stated separately as
CanContainFreeSpec. -/
def KPageTable.CanContain (pt : KPageTable) (address size : Nat) (st : KMemoryState) : Bool :=
  decide (pt.regionStart st ≤ address) && decide (address + size ≤ pt.regionEnd st)

/-- The literal spec wording of CanContain (section 4.1): the range is both
inside the permitted sub-region and entirely free (unmapped).  Kept as a
separate definition so the two readings can be compared. -/
def KPageTable.CanContainFreeSpec (pt : KPageTable) (address size : Nat)
    (st : KMemoryState) : Bool :=
  pt.CanContain address size st &&
    allIdx (address / PageSize) (size / PageSize) (fun i => (pt.pages i).isNone)

/-- Modelled from the spec: the homogeneity scan at the heart of
MakeAndOpenPageGroup (spec section 4.1): every page of the range must be
mapped and match the state, permission and attribute tests. -/
def KPageTable.openCheck (pt : KPageTable) (base n : Nat) (stateOk : KMemoryState → Bool)
    (permOk : KMemoryPermission → Bool) (attrOk : Nat → Bool) : Bool :=
  allIdx base n fun i =>
    match pt.pages i with
    | some info => stateOk info.state && permOk info.perm && attrOk info.attr
    | none => false

/-- Modelled from the spec: KPageTable::MakeAndOpenPageGroup (spec section
4.1): scans the range; on success builds the page group of backing blocks
and increments each constituent block reference count; fails with
InvalidCurrentMemory on a mismatching page, leaving no partial group and the
reference counts unchanged.  The state, permission and attribute mask pairs
of the source call are passed as the corresponding tests. -/
def KPageTable.makeAndOpenPageGroup (pt : KPageTable) (address n : Nat)
    (stateOk : KMemoryState → Bool) (permOk : KMemoryPermission → Bool)
    (attrOk : Nat → Bool) (refs : Nat → Nat) : Result × List Nat × (Nat → Nat) :=
  let base := address / PageSize
  if pt.openCheck base n stateOk permOk attrOk then
    let pg := blockIdx base n pt
    (.Success, pg, fun b => refs b + pg.count b)
  else
    (.InvalidCurrentMemory, [], refs)

/-- Page-table update installing a page group over a range: every page of
the range becomes mapped with the given state and permission, attribute
None, backed by the corresponding group block. -/
def installPG (pt : KPageTable) (base n : Nat) (pg : List Nat) (st : KMemoryState)
    (perm : KMemoryPermission) : KPageTable :=
  { pt with pages := (fun i =>
      if base ≤ i ∧ i < base + n then some ⟨st, perm, 0, pg.getD (i - base) 0⟩
      else pt.pages i) }

/-- Page-table update clearing a range back to free. -/
def clearRange (pt : KPageTable) (base n : Nat) : KPageTable :=
  { pt with pages := (fun i =>
      if base ≤ i ∧ i < base + n then none else pt.pages i) }

/-- Modelled from the spec: KPageTable::MapPageGroup (spec section 4.1):
requires the destination range to be CanContain-eligible for the state and
every destination page to be unmapped; installs the group with the given
state and permission, all-or-nothing. -/
def KPageTable.mapPageGroup (pt : KPageTable) (dstAddress : Nat) (pg : List Nat)
    (st : KMemoryState) (perm : KMemoryPermission) : Result × KPageTable :=
  let n := pg.length
  let base := dstAddress / PageSize
  if pt.CanContain dstAddress (n * PageSize) st then
    if allIdx base n (fun i => (pt.pages i).isNone) then
      (.Success, installPG pt base n pg st perm)
    else
      (.InvalidCurrentMemory, pt)
  else
    (.InvalidMemoryRegion, pt)

/-- Modelled from the spec: KPageTable::UnmapProcessMemory (spec section
4.1): requires the destination range to be currently mapped as SharedCode
and backed by blocks whose physical identity matches what the source page
table would produce for the source address (the same scan MapProcessMemory
performs); on success releases the destination reference on each block and
clears the range to free, all-or-nothing. -/
def KPageTable.unmapProcessMemory (pt : KPageTable) (dstAddress size : Nat)
    (srcPt : KPageTable) (srcAddress : Nat) (refs : Nat → Nat) :
    Result × KPageTable × (Nat → Nat) :=
  let n := size / PageSize
  let dstBase := dstAddress / PageSize
  let srcBase := srcAddress / PageSize
  if srcPt.openCheck srcBase n KMemoryState.canMapProcess (fun _ => true) (fun a => a == 0) then
    if allIdx dstBase n (fun i =>
        match pt.pages i with
        | some info => info.state == KMemoryState.SharedCode
        | none => false) then
      if blockIdx dstBase n pt = blockIdx srcBase n srcPt then
        let pg := blockIdx dstBase n pt
        (.Success, clearRange pt dstBase n, fun b => refs b - pg.count b)
      else
        (.InvalidMemoryRegion, pt, refs)
    else
      (.InvalidMemoryRegion, pt, refs)
  else
    (.InvalidCurrentMemory, pt, refs)

/-- Modelled from the spec: KPageTable::SetProcessMemoryPermission (spec
section 4.1): requires the full range to be currently mapped and its region
class to allow user permission mutation; atomically rewrites the permission
of every page in range, failing with InvalidCurrentMemory otherwise with no
partial application. -/
def KPageTable.setProcessMemoryPermission (pt : KPageTable) (address size perm : Nat) :
    Result × KPageTable :=
  let base := address / PageSize
  let n := size / PageSize
  if pt.openCheck base n KMemoryState.canChangePermission (fun _ => true) (fun _ => true) then
    (.Success, { pt with pages := (fun i =>
        if base ≤ i ∧ i < base + n then
          (pt.pages i).map fun info => { info with perm := ConvertToKMemoryPermission perm }
        else pt.pages i) })
  else
    (.InvalidCurrentMemory, pt)

/-- Modelled from the spec: KPageTable::MapCodeMemory (spec section 4.1):
the source range must be fully in a mappable-as-code-source state with
unborrowed attributes and the destination range free; installs an executable
alias of the source blocks at the destination and retains the source under
the mapped-out marker, all-or-nothing. -/
def KPageTable.mapCodeMemory (pt : KPageTable) (dst src size : Nat) : Result × KPageTable :=
  let n := size / PageSize
  let srcBase := src / PageSize
  let dstBase := dst / PageSize
  if allIdx srcBase n (fun i =>
      match pt.pages i with
      | some info => info.state.canBeCodeSource && info.attr == 0
      | none => false)
     && allIdx dstBase n (fun i => (pt.pages i).isNone) then
    (.Success, { pt with pages := (fun i =>
        if dstBase ≤ i ∧ i < dstBase + n then
          some ⟨.Code, .UserReadExecute, 0, blockAt pt (srcBase + (i - dstBase))⟩
        else if srcBase ≤ i ∧ i < srcBase + n then
          (pt.pages i).map fun info => { info with state := KMemoryState.CodeOut,
                                                   perm := KMemoryPermission.None }
        else pt.pages i) })
  else
    (.InvalidCurrentMemory, pt)

/-- Instruction-cache invalidation strategies accepted by UnmapCodeMemory;
the model has no instruction cache, so the choice has no observable
effect. -/
inductive ICacheInvalidationStrategy where
  | InvalidateRange
  | InvalidateAll
  deriving DecidableEq, Repr

/-- Modelled from the spec: KPageTable::UnmapCodeMemory (spec section 4.1):
the destination must exactly match the prior code alias of the source (which
sits under the mapped-out marker); fully reverses the map, restoring the
source region and clearing the destination, all-or-nothing. -/
def KPageTable.unmapCodeMemory (pt : KPageTable) (dst src size : Nat)
    (_strategy : ICacheInvalidationStrategy) : Result × KPageTable :=
  let n := size / PageSize
  let srcBase := src / PageSize
  let dstBase := dst / PageSize
  if allIdx dstBase n (fun i =>
      match pt.pages i with
      | some info => info.state == KMemoryState.Code
      | none => false)
     && allIdx srcBase n (fun i =>
      match pt.pages i with
      | some info => info.state == KMemoryState.CodeOut
      | none => false)
     && decide (blockIdx dstBase n pt = blockIdx srcBase n pt) then
    (.Success, { pt with pages := (fun i =>
        if dstBase ≤ i ∧ i < dstBase + n then none
        else if srcBase ≤ i ∧ i < srcBase + n then
          (pt.pages i).map fun info => { info with state := KMemoryState.CodeData,
                                                   perm := KMemoryPermission.UserReadWrite }
        else pt.pages i) })
  else
    (.InvalidCurrentMemory, pt)

/-- Handle value of the pseudo current-process handle. -/
def PseudoHandleCurrentProcess : Nat := 0xFFFF8001

/-- Kernel state visible to the five operations: the calling process id, the
directory of live processes (by id, each owning its page table), the calling
process handle table (handle to process id) and the physical block
reference counts. -/
structure System where
  curId : Nat
  procs : Nat → Option KPageTable
  handles : Nat → Option Nat
  refs : Nat → Nat

/-- Raw handle-table lookup: resolves a handle to a live process id, failing
cleanly for unknown or closed handles (spec section 3). -/
def System.rawLookup (s : System) (h : Nat) : Option Nat :=
  match s.handles h with
  | some pid => if (s.procs pid).isSome then some pid else none
  | none => none

/-- Modelled from the spec: KHandleTable::GetObjectWithoutPseudoHandle (spec
section 4.3): same as the raw lookup but explicitly rejects
pseudo-handles. -/
def System.GetObjectWithoutPseudoHandle (s : System) (h : Nat) : Option Nat :=
  if h = PseudoHandleCurrentProcess then none else s.rawLookup h

/-- Modelled from the spec: KHandleTable::GetObject (spec section 4.3):
resolves the pseudo current-process handle to the calling process and
otherwise behaves as GetObjectWithoutPseudoHandle. -/
def System.GetObject (s : System) (h : Nat) : Option Nat :=
  if h = PseudoHandleCurrentProcess then some s.curId else s.GetObjectWithoutPseudoHandle h

/-- Default page table standing for a dead process (its bounds are empty, so
every containment check on it fails). -/
def emptyPT : KPageTable :=
  { asStart := 0, asEnd := 0, aslrStart := 0, aslrEnd := 0, scStart := 0, scEnd := 0,
    pages := fun _ => none }

/-- Page table of the process with the given id. -/
def System.getPT (s : System) (pid : Nat) : KPageTable :=
  (s.procs pid).getD emptyPT

/-- State update replacing the page table of one process. -/
def System.setPT (s : System) (pid : Nat) (pt : KPageTable) : System :=
  { s with procs := fun q => if q = pid then some pt else s.procs q }

/-- State update replacing the reference counts. -/
def System.withRefs (s : System) (r : Nat → Nat) : System :=
  { s with refs := r }

/-- Embeds svc SetProcessMemoryPermission (svc_process_memory.cpp:29-57).
The two cast checks of lines 40-41 compare a u64 with itself through
uintptr_t and size_t, which are 64-bit on the host, so they always hold and
have no branch here. -/
def SetProcessMemoryPermission (s : System) (process_handle address size perm : Nat) :
    Result × System :=
  if address % PageSize = 0 then
    if size % PageSize = 0 then
      if 0 < size then
        if address < wadd address size then
          if IsValidProcessMemoryPermission perm then
            match s.GetObject process_handle with
            | some pid =>
              if (s.getPT pid).Contains address size then
                match (s.getPT pid).setProcessMemoryPermission address size perm with
                | (Result.Success, pt2) => (.Success, s.setPT pid pt2)
                | (r, _) => (r, s)
              else (.InvalidCurrentMemory, s)
            | none => (.InvalidHandle, s)
          else (.InvalidNewMemoryPermission, s)
        else (.InvalidCurrentMemory, s)
      else (.InvalidSize, s)
    else (.InvalidSize, s)
  else (.InvalidAddress, s)

/-- Embeds svc MapProcessMemory (svc_process_memory.cpp:59-100).  The page
group local of line 89 is disposed on every exit path; per the spec (section
3) disposal of a never-mapped group releases its references, while a mapped
group is consumed by the mapping, which takes over the reference. -/
def MapProcessMemory (s : System) (dst_address process_handle src_address size : Nat) :
    Result × System :=
  if dst_address % PageSize = 0 then
    if src_address % PageSize = 0 then
      if size % PageSize = 0 then
        if 0 < size then
          if dst_address < wadd dst_address size then
            if src_address < wadd src_address size then
              match s.GetObjectWithoutPseudoHandle process_handle with
              | some pid =>
                if (s.getPT pid).Contains src_address size then
                  if (s.getPT s.curId).CanContain dst_address size KMemoryState.SharedCode then
                    match (s.getPT pid).makeAndOpenPageGroup src_address (size / PageSize)
                        KMemoryState.canMapProcess (fun _ => true) (fun a => a == 0) s.refs with
                    | (Result.Success, pg, refs1) =>
                      match (s.getPT s.curId).mapPageGroup dst_address pg
                          KMemoryState.SharedCode KMemoryPermission.UserReadWrite with
                      | (Result.Success, pt2) =>
                        (.Success, (s.setPT s.curId pt2).withRefs refs1)
                      | (r, _) => (r, s.withRefs fun b => refs1 b - pg.count b)
                    | (r, _, _) => (r, s)
                  else (.InvalidMemoryRegion, s)
                else (.InvalidCurrentMemory, s)
              | none => (.InvalidHandle, s)
            else (.InvalidCurrentMemory, s)
          else (.InvalidCurrentMemory, s)
        else (.InvalidSize, s)
      else (.InvalidSize, s)
    else (.InvalidAddress, s)
  else (.InvalidAddress, s)

/-- Embeds svc UnmapProcessMemory (svc_process_memory.cpp:102-135). -/
def UnmapProcessMemory (s : System) (dst_address process_handle src_address size : Nat) :
    Result × System :=
  if dst_address % PageSize = 0 then
    if src_address % PageSize = 0 then
      if size % PageSize = 0 then
        if 0 < size then
          if dst_address < wadd dst_address size then
            if src_address < wadd src_address size then
              match s.GetObjectWithoutPseudoHandle process_handle with
              | some pid =>
                if (s.getPT pid).Contains src_address size then
                  if (s.getPT s.curId).CanContain dst_address size KMemoryState.SharedCode then
                    match (s.getPT s.curId).unmapProcessMemory dst_address size
                        (s.getPT pid) src_address s.refs with
                    | (Result.Success, pt2, refs2) =>
                      (.Success, (s.setPT s.curId pt2).withRefs refs2)
                    | (r, _, _) => (r, s)
                  else (.InvalidMemoryRegion, s)
                else (.InvalidCurrentMemory, s)
              | none => (.InvalidHandle, s)
            else (.InvalidCurrentMemory, s)
          else (.InvalidCurrentMemory, s)
        else (.InvalidSize, s)
      else (.InvalidSize, s)
    else (.InvalidAddress, s)
  else (.InvalidAddress, s)

/-- Embeds svc MapProcessCodeMemory (svc_process_memory.cpp:137-203): note
the source alignment is checked before the destination alignment, size zero
and misalignment share one check, and the handle is resolved through
GetObject, so the pseudo current-process handle is accepted here. -/
def MapProcessCodeMemory (s : System) (process_handle dst_address src_address size : Nat) :
    Result × System :=
  if src_address % PageSize = 0 then
    if dst_address % PageSize = 0 then
      if size ≠ 0 ∧ size % PageSize = 0 then
        if dst_address < wadd dst_address size then
          if src_address < wadd src_address size then
            match s.GetObject process_handle with
            | some pid =>
              if (s.getPT pid).IsInsideAddressSpace src_address size then
                if (s.getPT pid).IsInsideASLRRegion dst_address size then
                  match (s.getPT pid).mapCodeMemory dst_address src_address size with
                  | (Result.Success, pt2) => (.Success, s.setPT pid pt2)
                  | (r, _) => (r, s)
                else (.InvalidMemoryRegion, s)
              else (.InvalidCurrentMemory, s)
            | none => (.InvalidHandle, s)
          else (.InvalidCurrentMemory, s)
        else (.InvalidCurrentMemory, s)
      else (.InvalidSize, s)
    else (.InvalidAddress, s)
  else (.InvalidAddress, s)

/-- Embeds svc UnmapProcessCodeMemory (svc_process_memory.cpp:205-272): here
the destination alignment is checked before the source alignment; the rest
mirrors MapProcessCodeMemory, ending in UnmapCodeMemory with the
InvalidateAll strategy. -/
def UnmapProcessCodeMemory (s : System) (process_handle dst_address src_address size : Nat) :
    Result × System :=
  if dst_address % PageSize = 0 then
    if src_address % PageSize = 0 then
      if size ≠ 0 ∧ size % PageSize = 0 then
        if dst_address < wadd dst_address size then
          if src_address < wadd src_address size then
            match s.GetObject process_handle with
            | some pid =>
              if (s.getPT pid).IsInsideAddressSpace src_address size then
                if (s.getPT pid).IsInsideASLRRegion dst_address size then
                  match (s.getPT pid).unmapCodeMemory dst_address src_address size
                      ICacheInvalidationStrategy.InvalidateAll with
                  | (Result.Success, pt2) => (.Success, s.setPT pid pt2)
                  | (r, _) => (r, s)
                else (.InvalidMemoryRegion, s)
              else (.InvalidCurrentMemory, s)
            | none => (.InvalidHandle, s)
          else (.InvalidCurrentMemory, s)
        else (.InvalidCurrentMemory, s)
      else (.InvalidSize, s)
    else (.InvalidAddress, s)
  else (.InvalidAddress, s)

/-- Physical identity the source page table would produce for a share of the
given range: the page-group scan of MapProcessMemory, as an observation
(none when the scan fails). -/
def shareBlocks (pt : KPageTable) (address size : Nat) : Option (List Nat) :=
  if pt.openCheck (address / PageSize) (size / PageSize)
      KMemoryState.canMapProcess (fun _ => true) (fun a => a == 0) then
    some (blockIdx (address / PageSize) (size / PageSize) pt)
  else
    none

/-- Page table of a source page setup used as a source process in the
concrete scenarios: pages 1 and 2 are both backed by block 7 (an alias
within the source address space), page 3 by block 9, all process-mappable
code data. -/
def examplePages : Nat → Option PageInfo := fun i =>
  if i = 1 then some ⟨.CodeData, .UserReadWrite, 0, 7⟩
  else if i = 2 then some ⟨.CodeData, .UserReadWrite, 0, 7⟩
  else if i = 3 then some ⟨.CodeData, .UserReadWrite, 0, 9⟩
  else none

/-- Source process page table of the concrete scenarios. -/
def exampleSrcPT : KPageTable :=
  { asStart := 0, asEnd := 0x100000, aslrStart := 0x40000, aslrEnd := 0x80000,
    scStart := 0x10000, scEnd := 0x20000, pages := examplePages }

/-- Destination (calling) process page table of the concrete scenarios:
entirely unmapped. -/
def exampleDstPT : KPageTable :=
  { asStart := 0, asEnd := 0x100000, aslrStart := 0x40000, aslrEnd := 0x80000,
    scStart := 0x10000, scEnd := 0x20000, pages := fun _ => none }

/-- Concrete system of the scenarios: process 0 is the caller, process 1 the
source, handle 5 names process 1, no block is referenced yet. -/
def exampleSys : System :=
  { curId := 0,
    procs := fun p => if p = 0 then some exampleDstPT else if p = 1 then some exampleSrcPT else none,
    handles := fun h => if h = 5 then some 1 else none,
    refs := fun _ => 0 }

/-- Variant of the destination page table with one page of the shared-code
band already occupied. -/
def exampleBusyPT : KPageTable :=
  { exampleDstPT with pages := (fun i =>
      if i = 0x10000 / PageSize then some ⟨.SharedCode, .UserReadWrite, 0, 42⟩ else none) }

/-- Concrete system whose caller already has a mapping at the destination
the scenarios target. -/
def exampleSysBusy : System :=
  { exampleSys with procs := (fun p =>
      if p = 0 then some exampleBusyPT else if p = 1 then some exampleSrcPT else none) }

/-- Rewrites the permission of every mapped page by an arbitrary function,
leaving states, attributes, backing blocks and bounds unchanged: used to
express that an operation does not constrain the source permissions. -/
def permRewrite (pt : KPageTable) (pf : KMemoryPermission → KMemoryPermission) : KPageTable :=
  { pt with pages := (fun i => (pt.pages i).map fun info => { info with perm := pf info.perm }) }

/-- Pointwise reading of a range scan. -/
theorem allIdx_eq {base n : Nat} {f : Nat → Bool} :
    allIdx base n f = true ↔ ∀ k, k < n → f (base + k) = true := by
  simp [allIdx, List.all_eq_true, List.mem_range]

/-- Range scans agree when the scanned pages agree. -/
theorem allIdx_congr {base n : Nat} {f g : Nat → Bool}
    (h : ∀ k, k < n → f (base + k) = g (base + k)) :
    allIdx base n f = allIdx base n g := by
  rw [Bool.eq_iff_iff, allIdx_eq, allIdx_eq]
  constructor
  · intro ha k hk
    rw [← h k hk]
    exact ha k hk
  · intro ha k hk
    rw [h k hk]
    exact ha k hk

/-- A range scan survives a pointwise weakening of its test. -/
theorem allIdx_mono {base n : Nat} {f g : Nat → Bool}
    (h : ∀ k, k < n → f (base + k) = true → g (base + k) = true) :
    allIdx base n f = true → allIdx base n g = true := by
  rw [allIdx_eq, allIdx_eq]
  intro ha k hk
  exact h k hk (ha k hk)

/-- A block sequence has one entry per page of its range. -/
theorem blockIdx_length {base n : Nat} {pt : KPageTable} : (blockIdx base n pt).length = n := by
  simp [blockIdx]

/-- Entry k of a block sequence is the backing block of page base + k. -/
theorem blockIdx_getD {base n k : Nat} {pt : KPageTable} (hk : k < n) :
    (blockIdx base n pt).getD k 0 = blockAt pt (base + k) := by
  simp [blockIdx, List.getD, List.getElem?_map, List.getElem?_range, hk]

/-- Two block sequences over equal-length ranges are equal exactly when the
backing blocks agree pagewise. -/
theorem blockIdx_eq_iff {b1 b2 n : Nat} {pt1 pt2 : KPageTable} :
    blockIdx b1 n pt1 = blockIdx b2 n pt2 ↔
      ∀ k, k < n → blockAt pt1 (b1 + k) = blockAt pt2 (b2 + k) := by
  constructor
  · intro h k hk
    have h1 : (blockIdx b1 n pt1).getD k 0 = (blockIdx b2 n pt2).getD k 0 := by rw [h]
    rw [blockIdx_getD hk, blockIdx_getD hk] at h1
    exact h1
  · intro h
    apply List.ext_getElem (by simp [blockIdx])
    intro i h1 h2
    simp only [blockIdx, List.getElem_map, List.getElem_range]
    exact h i (by simpa [blockIdx] using h1)

/-- Block sequences agree when the scanned pages agree. -/
theorem blockIdx_congr {base n : Nat} {pt1 pt2 : KPageTable}
    (h : ∀ k, k < n → pt1.pages (base + k) = pt2.pages (base + k)) :
    blockIdx base n pt1 = blockIdx base n pt2 := by
  rw [blockIdx_eq_iff]
  intro k hk
  simp [blockAt, h k hk]

/-- Page content of an installed range, inside the range. -/
theorem installPG_pages_in {pt : KPageTable} {base n i : Nat} {pg : List Nat}
    {st : KMemoryState} {perm : KMemoryPermission} (h1 : base ≤ i) (h2 : i < base + n) :
    (installPG pt base n pg st perm).pages i = some ⟨st, perm, 0, pg.getD (i - base) 0⟩ := by
  simp only [installPG]
  rw [if_pos ⟨h1, h2⟩]

/-- Page content of an installed range, outside the range. -/
theorem installPG_pages_out {pt : KPageTable} {base n i : Nat} {pg : List Nat}
    {st : KMemoryState} {perm : KMemoryPermission} (h : ¬ (base ≤ i ∧ i < base + n)) :
    (installPG pt base n pg st perm).pages i = pt.pages i := by
  simp only [installPG]
  rw [if_neg h]

/-- Page content of a cleared range, inside the range. -/
theorem clearRange_pages_in {pt : KPageTable} {base n i : Nat}
    (h1 : base ≤ i) (h2 : i < base + n) : (clearRange pt base n).pages i = none := by
  simp only [clearRange]
  rw [if_pos ⟨h1, h2⟩]

/-- Page content of a cleared range, outside the range. -/
theorem clearRange_pages_out {pt : KPageTable} {base n i : Nat}
    (h : ¬ (base ≤ i ∧ i < base + n)) : (clearRange pt base n).pages i = pt.pages i := by
  simp only [clearRange]
  rw [if_neg h]

/-- Installing pages does not move the region bounds of a containment
check. -/
theorem CanContain_installPG {pt : KPageTable} {base n a sz : Nat} {pg : List Nat}
    {st st2 : KMemoryState} {perm : KMemoryPermission} :
    (installPG pt base n pg st perm).CanContain a sz st2 = pt.CanContain a sz st2 := rfl

/-- A record update that rewrites the page map back to itself is the
identity. -/
theorem pages_update_eq {pt : KPageTable} {f : Nat → Option PageInfo}
    (h : ∀ i, f i = pt.pages i) :
    ({ pt with pages := f } : KPageTable) = pt := by
  have hf : f = pt.pages := funext h
  rw [hf]

/-- Two systems with pointwise-equal components are equal. -/
theorem systemExtAll {s1 s2 : System} (h1 : s1.curId = s2.curId)
    (h2 : ∀ q, s1.procs q = s2.procs q) (h3 : ∀ q, s1.handles q = s2.handles q)
    (h4 : ∀ b, s1.refs b = s2.refs b) : s1 = s2 := by
  cases s1
  cases s2
  simp only [System.mk.injEq]
  exact ⟨h1, funext h2, funext h3, funext h4⟩

/-- curId is untouched by a page-table update. -/
theorem curId_setPT {s : System} {pid : Nat} {pt : KPageTable} :
    (s.setPT pid pt).curId = s.curId := rfl

/-- curId is untouched by a reference-count update. -/
theorem curId_withRefs {s : System} {r : Nat → Nat} : (s.withRefs r).curId = s.curId := rfl

/-- Reading back the page table just written. -/
theorem getPT_setPT_self {s : System} {pid : Nat} {pt : KPageTable} :
    (s.setPT pid pt).getPT pid = pt := by
  simp [System.setPT, System.getPT]

/-- Reading the page table of another process after a write. -/
theorem getPT_setPT_other {s : System} {pid q : Nat} {pt : KPageTable} (h : q ≠ pid) :
    (s.setPT pid pt).getPT q = s.getPT q := by
  simp [System.setPT, System.getPT, h]

/-- Reading a page table is unaffected by a reference-count update. -/
theorem getPT_withRefs {s : System} {q : Nat} {r : Nat → Nat} :
    (s.withRefs r).getPT q = s.getPT q := rfl

/-- A successful non-pseudo resolution survives page-table and
reference-count updates. -/
theorem gow_update {s : System} {p2 hh pid : Nat} {pt : KPageTable} {r : Nat → Nat}
    (h : s.GetObjectWithoutPseudoHandle hh = some pid) :
    ((s.setPT p2 pt).withRefs r).GetObjectWithoutPseudoHandle hh = some pid := by
  unfold System.GetObjectWithoutPseudoHandle at h ⊢
  split at h
  · exact absurd h (by simp)
  · next hps =>
    rw [if_neg hps]
    unfold System.rawLookup at h ⊢
    show (match s.handles hh with
      | some pid => if (if pid = p2 then some pt else s.procs pid).isSome then some pid else none
      | none => none) = some pid
    cases hhs : s.handles hh with
    | none =>
      rw [hhs] at h
      exact absurd h (by simp)
    | some pid0 =>
      rw [hhs] at h
      simp only at h
      split at h
      · cases h
        by_cases hp2 : pid = p2
        · simp [hp2]
        · next hso => simp [hp2, hso]
      · exact absurd h (by simp)

/-- A live resolved process id reads back its stored page table. -/
theorem procs_of_gow {s : System} {hh pid : Nat}
    (h : s.GetObjectWithoutPseudoHandle hh = some pid) :
    s.procs pid = some (s.getPT pid) := by
  unfold System.GetObjectWithoutPseudoHandle System.rawLookup at h
  split at h
  · exact absurd h (by simp)
  · cases hhs : s.handles hh with
    | none =>
      rw [hhs] at h
      exact absurd h (by simp)
    | some pid0 =>
      rw [hhs] at h
      simp only at h
      split at h
      · next hso =>
        cases h
        cases hps : s.procs pid with
        | none => rw [hps] at hso; exact absurd hso (by simp)
        | some pt => simp [System.getPT, hps]
      · exact absurd h (by simp)

/-- The calling process is live whenever a CanContain check on its page
table passes for a positive size. -/
theorem procs_curId_of_CanContain {s : System} {a sz : Nat} {st : KMemoryState}
    (hsz : 0 < sz) (hc : (s.getPT s.curId).CanContain a sz st = true) :
    s.procs s.curId = some (s.getPT s.curId) := by
  cases hps : s.procs s.curId with
  | some pt => simp [System.getPT, hps]
  | none =>
    exfalso
    have he : s.getPT s.curId = emptyPT := by simp [System.getPT, hps]
    rw [he] at hc
    have h2 : a + sz ≤ emptyPT.regionEnd st := by
      simp only [KPageTable.CanContain, Bool.and_eq_true, decide_eq_true_eq] at hc
      exact hc.2
    have h3 : emptyPT.regionEnd st = 0 := by
      cases st <;> rfl
    omega

/-- C7 (amended): for a shape-valid address and size and any handle,
SetProcessMemoryPermission with a permission outside the set {None, Read,
ReadWrite, ReadExecute} returns InvalidNewMemoryPermission with the state
unchanged and before any handle resolution (the result does not depend on
the handle), and every permission inside the set passes the permission
check.  The amendment: with an arbitrary (in particular unaligned) address,
the alignment error precedes the permission error, so the claim is
restricted to shape-valid addresses and sizes. -/
theorem C7_invalid_permission_rejected (s : System) (h address size perm : Nat)
    (ha : address % PageSize = 0) (hs : size % PageSize = 0) (hp : 0 < size)
    (ho : address < wadd address size)
    (hperm : perm ≠ PermNone ∧ perm ≠ PermRead ∧ perm ≠ PermReadWrite ∧ perm ≠ PermReadExecute) :
    SetProcessMemoryPermission s h address size perm = (Result.InvalidNewMemoryPermission, s)
    ∧ IsValidProcessMemoryPermission perm = false
    ∧ ∀ q, (q = PermNone ∨ q = PermRead ∨ q = PermReadWrite ∨ q = PermReadExecute) →
        IsValidProcessMemoryPermission q = true := by
  obtain ⟨h1, h2, h3, h4⟩ := hperm
  have hv : IsValidProcessMemoryPermission perm = false := by
    simp [IsValidProcessMemoryPermission, h1, h2, h3, h4]
  refine ⟨?_, hv, ?_⟩
  · simp [SetProcessMemoryPermission, ha, hs, hp, ho, hv]
  · rintro q (rfl | rfl | rfl | rfl) <;> rfl

/-- C7 counterexample: with the invalid permission pattern 2 (Write only)
but an unaligned address, SetProcessMemoryPermission returns InvalidAddress,
not InvalidNewMemoryPermission, so the claim fails for arbitrary
addresses. -/
theorem C7_counterexample :
    (SetProcessMemoryPermission exampleSys 5 1 4096 2).1 = Result.InvalidAddress
    ∧ IsValidProcessMemoryPermission 2 = false
    ∧ Result.InvalidAddress ≠ Result.InvalidNewMemoryPermission := by decide

/-- C7 witness: the amended theorem applied at a concrete shape-valid
input. -/
theorem C7_witness :
    SetProcessMemoryPermission exampleSys 5 4096 4096 2
      = (Result.InvalidNewMemoryPermission, exampleSys) :=
  (C7_invalid_permission_rejected exampleSys 5 4096 4096 2 (by decide) (by decide) (by decide)
    (by decide) ⟨by decide, by decide, by decide, by decide⟩).1

/-- C9 (amended): in every one of the five operations, an unaligned value of
either address argument yields InvalidAddress with the state unchanged, for
every value of the other arguments; and when every address argument is
aligned, a size that is zero or unaligned yields InvalidSize with the state
unchanged.  The amendment: when an address is unaligned AND the size is
bad, the address error wins (the source checks addresses first), so the
size clause is restricted to aligned addresses. -/
theorem C9_alignment_errors (s : System) (h a1 a2 size perm : Nat) :
    ((a1 % PageSize ≠ 0 → SetProcessMemoryPermission s h a1 size perm = (Result.InvalidAddress, s))
      ∧ (a1 % PageSize = 0 → size = 0 ∨ size % PageSize ≠ 0 →
          SetProcessMemoryPermission s h a1 size perm = (Result.InvalidSize, s)))
    ∧ ((a1 % PageSize ≠ 0 → MapProcessMemory s a1 h a2 size = (Result.InvalidAddress, s))
      ∧ (a2 % PageSize ≠ 0 → MapProcessMemory s a1 h a2 size = (Result.InvalidAddress, s))
      ∧ (a1 % PageSize = 0 → a2 % PageSize = 0 → size = 0 ∨ size % PageSize ≠ 0 →
          MapProcessMemory s a1 h a2 size = (Result.InvalidSize, s)))
    ∧ ((a1 % PageSize ≠ 0 → UnmapProcessMemory s a1 h a2 size = (Result.InvalidAddress, s))
      ∧ (a2 % PageSize ≠ 0 → UnmapProcessMemory s a1 h a2 size = (Result.InvalidAddress, s))
      ∧ (a1 % PageSize = 0 → a2 % PageSize = 0 → size = 0 ∨ size % PageSize ≠ 0 →
          UnmapProcessMemory s a1 h a2 size = (Result.InvalidSize, s)))
    ∧ ((a1 % PageSize ≠ 0 → MapProcessCodeMemory s h a1 a2 size = (Result.InvalidAddress, s))
      ∧ (a2 % PageSize ≠ 0 → MapProcessCodeMemory s h a1 a2 size = (Result.InvalidAddress, s))
      ∧ (a1 % PageSize = 0 → a2 % PageSize = 0 → size = 0 ∨ size % PageSize ≠ 0 →
          MapProcessCodeMemory s h a1 a2 size = (Result.InvalidSize, s)))
    ∧ ((a1 % PageSize ≠ 0 → UnmapProcessCodeMemory s h a1 a2 size = (Result.InvalidAddress, s))
      ∧ (a2 % PageSize ≠ 0 → UnmapProcessCodeMemory s h a1 a2 size = (Result.InvalidAddress, s))
      ∧ (a1 % PageSize = 0 → a2 % PageSize = 0 → size = 0 ∨ size % PageSize ≠ 0 →
          UnmapProcessCodeMemory s h a1 a2 size = (Result.InvalidSize, s))) := by
  refine ⟨⟨?_, ?_⟩, ⟨?_, ?_, ?_⟩, ⟨?_, ?_, ?_⟩, ⟨?_, ?_, ?_⟩, ⟨?_, ?_, ?_⟩⟩
  · intro h1
    simp [SetProcessMemoryPermission, h1]
  · rintro h1 (rfl | hsz)
    · simp [SetProcessMemoryPermission, h1]
    · simp [SetProcessMemoryPermission, h1, hsz]
  · intro h1
    simp [MapProcessMemory, h1]
  · intro h2
    by_cases h1 : a1 % PageSize = 0 <;> simp [MapProcessMemory, h1, h2]
  · rintro h1 h2 (rfl | hsz)
    · simp [MapProcessMemory, h1, h2]
    · simp [MapProcessMemory, h1, h2, hsz]
  · intro h1
    simp [UnmapProcessMemory, h1]
  · intro h2
    by_cases h1 : a1 % PageSize = 0 <;> simp [UnmapProcessMemory, h1, h2]
  · rintro h1 h2 (rfl | hsz)
    · simp [UnmapProcessMemory, h1, h2]
    · simp [UnmapProcessMemory, h1, h2, hsz]
  · intro h1
    by_cases h2 : a2 % PageSize = 0 <;> simp [MapProcessCodeMemory, h1, h2]
  · intro h2
    simp [MapProcessCodeMemory, h2]
  · rintro h1 h2 (rfl | hsz)
    · simp [MapProcessCodeMemory, h1, h2]
    · simp [MapProcessCodeMemory, h1, h2, hsz]
  · intro h1
    simp [UnmapProcessCodeMemory, h1]
  · intro h2
    by_cases h1 : a1 % PageSize = 0 <;> simp [UnmapProcessCodeMemory, h1, h2]
  · rintro h1 h2 (rfl | hsz)
    · simp [UnmapProcessCodeMemory, h1, h2]
    · simp [UnmapProcessCodeMemory, h1, h2, hsz]

/-- C9 counterexample: at the unaligned address 1 with size 0, the
operation reports InvalidAddress, not InvalidSize, so the size clause of
the claim fails for arbitrary addresses. -/
theorem C9_counterexample :
    (SetProcessMemoryPermission exampleSys 5 1 0 0).1 = Result.InvalidAddress
    ∧ Result.InvalidAddress ≠ Result.InvalidSize := by decide

/-- C9 witness: the amended theorem applied at concrete inputs, one per
clause kind. -/
theorem C9_witness :
    SetProcessMemoryPermission exampleSys 5 4097 4096 0 = (Result.InvalidAddress, exampleSys)
    ∧ MapProcessMemory exampleSys 4096 5 8192 4100 = (Result.InvalidSize, exampleSys) := by
  constructor
  · exact (C9_alignment_errors exampleSys 5 4097 0 4096 0).1.1 (by decide)
  · exact (C9_alignment_errors exampleSys 5 4096 8192 4100 0).2.1.2.2 (by decide) (by decide)
      (Or.inr (by decide))

/-- C4 (confirmed): with shape-valid arguments, MapProcessMemory and
UnmapProcessMemory called on the pseudo current-process handle fail with
InvalidHandle and change nothing, because GetObjectWithoutPseudoHandle
always rejects the pseudo handle, even though GetObject on the same handle
resolves to the calling process. -/
theorem C4_pseudo_handle_rejected (s : System) (dst src size : Nat)
    (h1 : dst % PageSize = 0) (h2 : src % PageSize = 0) (h3 : size % PageSize = 0)
    (h4 : 0 < size) (h5 : dst < wadd dst size) (h6 : src < wadd src size) :
    MapProcessMemory s dst PseudoHandleCurrentProcess src size = (Result.InvalidHandle, s)
    ∧ UnmapProcessMemory s dst PseudoHandleCurrentProcess src size = (Result.InvalidHandle, s)
    ∧ s.GetObjectWithoutPseudoHandle PseudoHandleCurrentProcess = none
    ∧ s.GetObject PseudoHandleCurrentProcess = some s.curId := by
  have hg : s.GetObjectWithoutPseudoHandle PseudoHandleCurrentProcess = none := by
    simp [System.GetObjectWithoutPseudoHandle]
  refine ⟨?_, ?_, hg, by simp [System.GetObject]⟩
  · simp [MapProcessMemory, h1, h2, h3, h4, h5, h6, hg]
  · simp [UnmapProcessMemory, h1, h2, h3, h4, h5, h6, hg]

/-- C4 witness: the theorem applied at a concrete shape-valid input. -/
theorem C4_witness :
    MapProcessMemory exampleSys 0x10000 PseudoHandleCurrentProcess 0x1000 0x1000
      = (Result.InvalidHandle, exampleSys)
    ∧ exampleSys.GetObject PseudoHandleCurrentProcess = some exampleSys.curId := by
  have h := C4_pseudo_handle_rejected exampleSys 0x10000 0x1000 0x1000 (by decide) (by decide)
      (by decide) (by decide) (by decide) (by decide)
  exact ⟨h.1, h.2.2.2⟩

/-- C6 (confirmed): with page-aligned, non-overflowing arguments, a handle
resolving to a process and a source range inside the address space, a
destination range outside the ASLR region makes MapProcessCodeMemory and
UnmapProcessCodeMemory fail with InvalidMemoryRegion and change nothing. -/
theorem C6_aslr_region_required (s : System) (h dst src size pid : Nat)
    (h1 : src % PageSize = 0) (h2 : dst % PageSize = 0) (h3 : size % PageSize = 0)
    (h4 : 0 < size) (h5 : dst < wadd dst size) (h6 : src < wadd src size)
    (h7 : s.GetObject h = some pid)
    (h8 : (s.getPT pid).IsInsideAddressSpace src size = true)
    (h9 : (s.getPT pid).IsInsideASLRRegion dst size = false) :
    MapProcessCodeMemory s h dst src size = (Result.InvalidMemoryRegion, s)
    ∧ UnmapProcessCodeMemory s h dst src size = (Result.InvalidMemoryRegion, s) := by
  have h4a : size ≠ 0 := Nat.pos_iff_ne_zero.mp h4
  constructor
  · simp [MapProcessCodeMemory, h1, h2, h3, h4a, h5, h6, h7, h8, h9]
  · simp [UnmapProcessCodeMemory, h1, h2, h3, h4a, h5, h6, h7, h8, h9]

/-- C6 witness: the theorem applied at a concrete input whose destination
lies below the ASLR region. -/
theorem C6_witness :
    MapProcessCodeMemory exampleSys 5 0x20000 0x1000 0x1000
      = (Result.InvalidMemoryRegion, exampleSys) :=
  (C6_aslr_region_required exampleSys 5 0x20000 0x1000 0x1000 1 (by decide) (by decide)
    (by decide) (by decide) (by decide) (by decide) (by decide) (by decide) (by decide)).1

/-- C8 (confirmed): for every page-aligned pair (a, size) of u64 values with
positive size whose sum overflows 64 bits, every one of the five operations
rejects the call with InvalidCurrentMemory or InvalidAddress and changes no
state, whichever address argument carries the overflowing pair; the result
holds for every handle value, so the handle is never consulted. -/
theorem C8_overflow_rejected (s : System) (h a b size perm : Nat)
    (ha : a % PageSize = 0) (hs : size % PageSize = 0) (hp : 0 < size)
    (haU : a < U64) (hsU : size < U64) (hov : U64 ≤ a + size) :
    SetProcessMemoryPermission s h a size perm = (Result.InvalidCurrentMemory, s)
    ∧ (((MapProcessMemory s a h b size).1 = Result.InvalidCurrentMemory
        ∨ (MapProcessMemory s a h b size).1 = Result.InvalidAddress)
      ∧ (MapProcessMemory s a h b size).2 = s)
    ∧ (((MapProcessMemory s b h a size).1 = Result.InvalidCurrentMemory
        ∨ (MapProcessMemory s b h a size).1 = Result.InvalidAddress)
      ∧ (MapProcessMemory s b h a size).2 = s)
    ∧ (((UnmapProcessMemory s a h b size).1 = Result.InvalidCurrentMemory
        ∨ (UnmapProcessMemory s a h b size).1 = Result.InvalidAddress)
      ∧ (UnmapProcessMemory s a h b size).2 = s)
    ∧ (((UnmapProcessMemory s b h a size).1 = Result.InvalidCurrentMemory
        ∨ (UnmapProcessMemory s b h a size).1 = Result.InvalidAddress)
      ∧ (UnmapProcessMemory s b h a size).2 = s)
    ∧ (((MapProcessCodeMemory s h a b size).1 = Result.InvalidCurrentMemory
        ∨ (MapProcessCodeMemory s h a b size).1 = Result.InvalidAddress)
      ∧ (MapProcessCodeMemory s h a b size).2 = s)
    ∧ (((MapProcessCodeMemory s h b a size).1 = Result.InvalidCurrentMemory
        ∨ (MapProcessCodeMemory s h b a size).1 = Result.InvalidAddress)
      ∧ (MapProcessCodeMemory s h b a size).2 = s)
    ∧ (((UnmapProcessCodeMemory s h a b size).1 = Result.InvalidCurrentMemory
        ∨ (UnmapProcessCodeMemory s h a b size).1 = Result.InvalidAddress)
      ∧ (UnmapProcessCodeMemory s h a b size).2 = s)
    ∧ (((UnmapProcessCodeMemory s h b a size).1 = Result.InvalidCurrentMemory
        ∨ (UnmapProcessCodeMemory s h b a size).1 = Result.InvalidAddress)
      ∧ (UnmapProcessCodeMemory s h b a size).2 = s) := by
  have hpn : size ≠ 0 := Nat.pos_iff_ne_zero.mp hp
  have hw : wadd a size = a + size - U64 := by
    unfold wadd
    rw [Nat.mod_eq_sub_mod hov, Nat.mod_eq_of_lt (by omega)]
  have hnlt : ¬ (a < wadd a size) := by
    rw [hw]
    omega
  refine ⟨?_, ?_, ?_, ?_, ?_, ?_, ?_, ?_, ?_⟩
  · simp [SetProcessMemoryPermission, ha, hs, hp, hnlt]
  · by_cases hb : b % PageSize = 0
    · have he : MapProcessMemory s a h b size = (Result.InvalidCurrentMemory, s) := by
        simp [MapProcessMemory, ha, hb, hs, hp, hnlt]
      rw [he]
      exact ⟨Or.inl rfl, rfl⟩
    · have he : MapProcessMemory s a h b size = (Result.InvalidAddress, s) := by
        simp [MapProcessMemory, ha, hb]
      rw [he]
      exact ⟨Or.inr rfl, rfl⟩
  · by_cases hb : b % PageSize = 0
    · by_cases hbo : b < wadd b size
      · have he : MapProcessMemory s b h a size = (Result.InvalidCurrentMemory, s) := by
          simp [MapProcessMemory, ha, hb, hs, hp, hbo, hnlt]
        rw [he]
        exact ⟨Or.inl rfl, rfl⟩
      · have he : MapProcessMemory s b h a size = (Result.InvalidCurrentMemory, s) := by
          simp [MapProcessMemory, ha, hb, hs, hp, hbo]
        rw [he]
        exact ⟨Or.inl rfl, rfl⟩
    · have he : MapProcessMemory s b h a size = (Result.InvalidAddress, s) := by
        simp [MapProcessMemory, ha, hb]
      rw [he]
      exact ⟨Or.inr rfl, rfl⟩
  · by_cases hb : b % PageSize = 0
    · have he : UnmapProcessMemory s a h b size = (Result.InvalidCurrentMemory, s) := by
        simp [UnmapProcessMemory, ha, hb, hs, hp, hnlt]
      rw [he]
      exact ⟨Or.inl rfl, rfl⟩
    · have he : UnmapProcessMemory s a h b size = (Result.InvalidAddress, s) := by
        simp [UnmapProcessMemory, ha, hb]
      rw [he]
      exact ⟨Or.inr rfl, rfl⟩
  · by_cases hb : b % PageSize = 0
    · by_cases hbo : b < wadd b size
      · have he : UnmapProcessMemory s b h a size = (Result.InvalidCurrentMemory, s) := by
          simp [UnmapProcessMemory, ha, hb, hs, hp, hbo, hnlt]
        rw [he]
        exact ⟨Or.inl rfl, rfl⟩
      · have he : UnmapProcessMemory s b h a size = (Result.InvalidCurrentMemory, s) := by
          simp [UnmapProcessMemory, ha, hb, hs, hp, hbo]
        rw [he]
        exact ⟨Or.inl rfl, rfl⟩
    · have he : UnmapProcessMemory s b h a size = (Result.InvalidAddress, s) := by
        simp [UnmapProcessMemory, ha, hb]
      rw [he]
      exact ⟨Or.inr rfl, rfl⟩
  · by_cases hb : b % PageSize = 0
    · have he : MapProcessCodeMemory s h a b size = (Result.InvalidCurrentMemory, s) := by
        simp [MapProcessCodeMemory, ha, hb, hs, hpn, hnlt]
      rw [he]
      exact ⟨Or.inl rfl, rfl⟩
    · have he : MapProcessCodeMemory s h a b size = (Result.InvalidAddress, s) := by
        simp [MapProcessCodeMemory, ha, hb]
      rw [he]
      exact ⟨Or.inr rfl, rfl⟩
  · by_cases hb : b % PageSize = 0
    · by_cases hbo : b < wadd b size
      · have he : MapProcessCodeMemory s h b a size = (Result.InvalidCurrentMemory, s) := by
          simp [MapProcessCodeMemory, ha, hb, hs, hpn, hbo, hnlt]
        rw [he]
        exact ⟨Or.inl rfl, rfl⟩
      · have he : MapProcessCodeMemory s h b a size = (Result.InvalidCurrentMemory, s) := by
          simp [MapProcessCodeMemory, ha, hb, hs, hpn, hbo]
        rw [he]
        exact ⟨Or.inl rfl, rfl⟩
    · have he : MapProcessCodeMemory s h b a size = (Result.InvalidAddress, s) := by
        simp [MapProcessCodeMemory, ha, hb]
      rw [he]
      exact ⟨Or.inr rfl, rfl⟩
  · by_cases hb : b % PageSize = 0
    · have he : UnmapProcessCodeMemory s h a b size = (Result.InvalidCurrentMemory, s) := by
        simp [UnmapProcessCodeMemory, ha, hb, hs, hpn, hnlt]
      rw [he]
      exact ⟨Or.inl rfl, rfl⟩
    · have he : UnmapProcessCodeMemory s h a b size = (Result.InvalidAddress, s) := by
        simp [UnmapProcessCodeMemory, ha, hb]
      rw [he]
      exact ⟨Or.inr rfl, rfl⟩
  · by_cases hb : b % PageSize = 0
    · by_cases hbo : b < wadd b size
      · have he : UnmapProcessCodeMemory s h b a size = (Result.InvalidCurrentMemory, s) := by
          simp [UnmapProcessCodeMemory, ha, hb, hs, hpn, hbo, hnlt]
        rw [he]
        exact ⟨Or.inl rfl, rfl⟩
      · have he : UnmapProcessCodeMemory s h b a size = (Result.InvalidCurrentMemory, s) := by
          simp [UnmapProcessCodeMemory, ha, hb, hs, hpn, hbo]
        rw [he]
        exact ⟨Or.inl rfl, rfl⟩
    · have he : UnmapProcessCodeMemory s h b a size = (Result.InvalidAddress, s) := by
        simp [UnmapProcessCodeMemory, ha, hb]
      rw [he]
      exact ⟨Or.inr rfl, rfl⟩

/-- C8 witness: the theorem applied with the overflowing pair
(2^64 - PageSize, 2 * PageSize) and an invalid handle, showing the overflow
error wins over handle resolution. -/
theorem C8_witness :
    SetProcessMemoryPermission exampleSys 99 (U64 - PageSize) (2 * PageSize) 0
      = (Result.InvalidCurrentMemory, exampleSys)
    ∧ (MapProcessMemory exampleSys (U64 - PageSize) 99 0 (2 * PageSize)).2 = exampleSys := by
  have h := C8_overflow_rejected exampleSys 99 (U64 - PageSize) 0 (2 * PageSize) 0
    (by decide) (by decide) (by decide) (by decide) (by decide) (by decide)
  exact ⟨h.1, h.2.1.2⟩

theorem makeAndOpen_refs_close {pt : KPageTable} {addr n : Nat} {sOk : KMemoryState → Bool}
    {pOk : KMemoryPermission → Bool} {aOk : Nat → Bool} {refs : Nat → Nat}
    {r : Result} {pg : List Nat} {refs1 : Nat → Nat}
    (h : pt.makeAndOpenPageGroup addr n sOk pOk aOk refs = (r, pg, refs1)) :
    ∀ b, refs1 b - pg.count b = refs b := by
  simp only [KPageTable.makeAndOpenPageGroup] at h
  split at h
  · injection h with h1 h2
    injection h2 with h2 h3
    intro b
    rw [← h3, ← h2]
    simp
  · injection h with h1 h2
    injection h2 with h2 h3
    intro b
    rw [← h3, ← h2]
    simp

theorem MapProcessMemory_fail {s : System} {dst h src size : Nat} {r : Result} {s2 : System}
    (hm : MapProcessMemory s dst h src size = (r, s2)) (hr : r ≠ Result.Success) : s2 = s := by
  unfold MapProcessMemory at hm
  repeat' split at hm
  all_goals (
    injection hm with h1 h2
    try exact h2.symm
    try exact absurd h1.symm hr)
  rename_i heqMake x0 rv ptv hne heq2
  rw [← h2]
  exact systemExtAll rfl (fun q => rfl) (fun q => rfl) (makeAndOpen_refs_close heqMake)

theorem SetProcessMemoryPermission_fail {s : System} {h a size perm : Nat} {r : Result} {s2 : System}
    (hm : SetProcessMemoryPermission s h a size perm = (r, s2)) (hr : r ≠ Result.Success) : s2 = s := by
  unfold SetProcessMemoryPermission at hm
  repeat' split at hm
  all_goals (
    injection hm with h1 h2
    first
      | exact h2.symm
      | exact absurd h1.symm hr)

theorem UnmapProcessMemory_fail {s : System} {dst h src size : Nat} {r : Result} {s2 : System}
    (hm : UnmapProcessMemory s dst h src size = (r, s2)) (hr : r ≠ Result.Success) : s2 = s := by
  unfold UnmapProcessMemory at hm
  repeat' split at hm
  all_goals (
    injection hm with h1 h2
    first
      | exact h2.symm
      | exact absurd h1.symm hr)

theorem MapProcessCodeMemory_fail {s : System} {h dst src size : Nat} {r : Result} {s2 : System}
    (hm : MapProcessCodeMemory s h dst src size = (r, s2)) (hr : r ≠ Result.Success) : s2 = s := by
  unfold MapProcessCodeMemory at hm
  repeat' split at hm
  all_goals (
    injection hm with h1 h2
    first
      | exact h2.symm
      | exact absurd h1.symm hr)

theorem UnmapProcessCodeMemory_fail {s : System} {h dst src size : Nat} {r : Result} {s2 : System}
    (hm : UnmapProcessCodeMemory s h dst src size = (r, s2)) (hr : r ≠ Result.Success) : s2 = s := by
  unfold UnmapProcessCodeMemory at hm
  repeat' split at hm
  all_goals (
    injection hm with h1 h2
    first
      | exact h2.symm
      | exact absurd h1.symm hr)


/-- C3 (confirmed): every failing MapProcessMemory call leaves the entire
system unchanged: no destination mapping is installed and every block
reference count is as before the call; in particular on the path where
MakeAndOpenPageGroup succeeded and MapPageGroup then failed, the disposed
page group returns exactly the references it had opened. -/
theorem C3_map_failure_atomic (s : System) (dst h src size : Nat) (r : Result) (s2 : System)
    (hm : MapProcessMemory s dst h src size = (r, s2)) (hr : r ≠ Result.Success) :
    s2 = s ∧ (∀ b, s2.refs b = s.refs b) ∧ s2.getPT s.curId = s.getPT s.curId := by
  have he : s2 = s := MapProcessMemory_fail hm hr
  subst he
  exact ⟨rfl, fun b => rfl, rfl⟩

/-- C3 witness: a concrete call that opens the source page group and then
fails in MapPageGroup because one destination page is already mapped; the
returned state is the original one. -/
theorem C3_witness :
    (MapProcessMemory exampleSysBusy 0x10000 5 0x1000 0x1000).1 = Result.InvalidCurrentMemory
    ∧ (MapProcessMemory exampleSysBusy 0x10000 5 0x1000 0x1000).2 = exampleSysBusy := by
  have h := C3_map_failure_atomic exampleSysBusy 0x10000 5 0x1000 0x1000
      (MapProcessMemory exampleSysBusy 0x10000 5 0x1000 0x1000).1
      (MapProcessMemory exampleSysBusy 0x10000 5 0x1000 0x1000).2
      rfl (by decide)
  exact ⟨by decide, h.1⟩

/-- C5 (confirmed): for each of the five operations, a failing call changes
no state; an unaligned first-checked address yields the alignment error for
every handle value, in particular an invalid one; with shape-valid inputs an
invalid permission is reported before the handle is consulted; and with
shape-valid (and permission-valid) inputs a failing handle resolution yields
InvalidHandle, before any containment check, for every page-table state. -/
theorem C5_check_order (s : System) (h u a b size perm : Nat)
    (ha : a % PageSize = 0) (hb : b % PageSize = 0) (hs : size % PageSize = 0) (hp : 0 < size)
    (hoa : a < wadd a size) (hob : b < wadd b size) :
    (((SetProcessMemoryPermission s h a size perm).1 ≠ Result.Success →
        (SetProcessMemoryPermission s h a size perm).2 = s)
      ∧ (u % PageSize ≠ 0 → SetProcessMemoryPermission s h u size perm = (Result.InvalidAddress, s))
      ∧ (IsValidProcessMemoryPermission perm = false →
          SetProcessMemoryPermission s h a size perm = (Result.InvalidNewMemoryPermission, s))
      ∧ (IsValidProcessMemoryPermission perm = true → s.GetObject h = none →
          SetProcessMemoryPermission s h a size perm = (Result.InvalidHandle, s)))
    ∧ (((MapProcessMemory s a h b size).1 ≠ Result.Success →
        (MapProcessMemory s a h b size).2 = s)
      ∧ (u % PageSize ≠ 0 → MapProcessMemory s u h b size = (Result.InvalidAddress, s))
      ∧ (s.GetObjectWithoutPseudoHandle h = none →
          MapProcessMemory s a h b size = (Result.InvalidHandle, s)))
    ∧ (((UnmapProcessMemory s a h b size).1 ≠ Result.Success →
        (UnmapProcessMemory s a h b size).2 = s)
      ∧ (u % PageSize ≠ 0 → UnmapProcessMemory s u h b size = (Result.InvalidAddress, s))
      ∧ (s.GetObjectWithoutPseudoHandle h = none →
          UnmapProcessMemory s a h b size = (Result.InvalidHandle, s)))
    ∧ (((MapProcessCodeMemory s h a b size).1 ≠ Result.Success →
        (MapProcessCodeMemory s h a b size).2 = s)
      ∧ (u % PageSize ≠ 0 → MapProcessCodeMemory s h a u size = (Result.InvalidAddress, s))
      ∧ (s.GetObject h = none → MapProcessCodeMemory s h a b size = (Result.InvalidHandle, s)))
    ∧ (((UnmapProcessCodeMemory s h a b size).1 ≠ Result.Success →
        (UnmapProcessCodeMemory s h a b size).2 = s)
      ∧ (u % PageSize ≠ 0 → UnmapProcessCodeMemory s h u b size = (Result.InvalidAddress, s))
      ∧ (s.GetObject h = none →
          UnmapProcessCodeMemory s h a b size = (Result.InvalidHandle, s))) := by
  have hpn : size ≠ 0 := Nat.pos_iff_ne_zero.mp hp
  refine ⟨⟨?_, ?_, ?_, ?_⟩, ⟨?_, ?_, ?_⟩, ⟨?_, ?_, ?_⟩, ⟨?_, ?_, ?_⟩, ⟨?_, ?_, ?_⟩⟩
  · intro hne
    exact SetProcessMemoryPermission_fail rfl hne
  · intro h1
    simp [SetProcessMemoryPermission, h1]
  · intro hv
    simp [SetProcessMemoryPermission, ha, hs, hp, hoa, hv]
  · intro hv hres
    simp [SetProcessMemoryPermission, ha, hs, hp, hoa, hv, hres]
  · intro hne
    exact MapProcessMemory_fail rfl hne
  · intro h1
    simp [MapProcessMemory, h1]
  · intro hres
    simp [MapProcessMemory, ha, hb, hs, hp, hoa, hob, hres]
  · intro hne
    exact UnmapProcessMemory_fail rfl hne
  · intro h1
    simp [UnmapProcessMemory, h1]
  · intro hres
    simp [UnmapProcessMemory, ha, hb, hs, hp, hoa, hob, hres]
  · intro hne
    exact MapProcessCodeMemory_fail rfl hne
  · intro h1
    simp [MapProcessCodeMemory, h1]
  · intro hres
    simp [MapProcessCodeMemory, ha, hb, hs, hpn, hoa, hob, hres]
  · intro hne
    exact UnmapProcessCodeMemory_fail rfl hne
  · intro h1
    simp [UnmapProcessCodeMemory, h1]
  · intro hres
    simp [UnmapProcessCodeMemory, ha, hb, hs, hpn, hoa, hob, hres]

/-- C5 witness: with handle 99 unknown, shape-valid map arguments resolve
to InvalidHandle, while an unaligned address beats the invalid handle and
reports InvalidAddress. -/
theorem C5_witness :
    MapProcessMemory exampleSys 0x10000 99 0x1000 0x1000 = (Result.InvalidHandle, exampleSys)
    ∧ SetProcessMemoryPermission exampleSys 99 1 0x1000 0 = (Result.InvalidAddress, exampleSys) := by
  have h := C5_check_order exampleSys 99 1 0x10000 0x1000 0x1000 0 (by decide) (by decide)
      (by decide) (by decide) (by decide) (by decide)
  exact ⟨h.2.1.2.2 (by decide), h.1.2.1 (by decide)⟩

theorem MapProcessMemory_success_spec {s : System} {dst h src size : Nat} {s2 : System}
    (hm : MapProcessMemory s dst h src size = (Result.Success, s2)) :
    ∃ pid, s.GetObjectWithoutPseudoHandle h = some pid
      ∧ dst % PageSize = 0 ∧ src % PageSize = 0 ∧ size % PageSize = 0 ∧ 0 < size
      ∧ dst < wadd dst size ∧ src < wadd src size
      ∧ (s.getPT pid).Contains src size = true
      ∧ (s.getPT s.curId).CanContain dst size KMemoryState.SharedCode = true
      ∧ (s.getPT pid).openCheck (src / PageSize) (size / PageSize)
          KMemoryState.canMapProcess (fun _ => true) (fun a => a == 0) = true
      ∧ allIdx (dst / PageSize) (size / PageSize)
          (fun i => ((s.getPT s.curId).pages i).isNone) = true
      ∧ s2 = (s.setPT s.curId (installPG (s.getPT s.curId) (dst / PageSize) (size / PageSize)
              (blockIdx (src / PageSize) (size / PageSize) (s.getPT pid))
              KMemoryState.SharedCode KMemoryPermission.UserReadWrite)).withRefs
          (fun b => s.refs b +
            (blockIdx (src / PageSize) (size / PageSize) (s.getPT pid)).count b) := by
  unfold MapProcessMemory at hm
  repeat' split at hm
  all_goals (
    injection hm with h1 h2
    first
      | exact Result.noConfusion h1
      | exact absurd h1 (by assumption)
      | skip)
  rename_i hd hsrc hsz hpos hod hos x2 pid heqRes hCont hCanC x1 pg refs1 heqM x0 pt2 heqG
  simp only [KPageTable.makeAndOpenPageGroup] at heqM
  split at heqM
  case isTrue hOC =>
    injection heqM with e1 e2
    injection e2 with e2 e3
    subst e2
    subst e3
    simp only [KPageTable.mapPageGroup] at heqG
    split at heqG
    case isTrue hCC2 =>
      split at heqG
      case isTrue hFree =>
        injection heqG with e4 e5
        subst e5
        refine ⟨pid, heqRes, hd, hsrc, hsz, hpos, hod, hos, hCont, hCanC, hOC, ?_, ?_⟩
        · rwa [blockIdx_length] at hFree
        · rw [← h2, blockIdx_length]
      case isFalse hFree =>
        injection heqG with e4 e5
        exact Result.noConfusion e4
    case isFalse hCC2 =>
      injection heqG with e4 e5
      exact Result.noConfusion e4
  case isFalse hOC =>
    injection heqM with e1 e2
    exact Result.noConfusion e1

theorem UnmapProcessMemory_success_spec {s : System} {dst h src size : Nat} {s2 : System}
    (hm : UnmapProcessMemory s dst h src size = (Result.Success, s2)) :
    ∃ pid, s.GetObjectWithoutPseudoHandle h = some pid
      ∧ dst % PageSize = 0 ∧ src % PageSize = 0 ∧ size % PageSize = 0 ∧ 0 < size
      ∧ dst < wadd dst size ∧ src < wadd src size
      ∧ (s.getPT pid).Contains src size = true
      ∧ (s.getPT s.curId).CanContain dst size KMemoryState.SharedCode = true
      ∧ (s.getPT pid).openCheck (src / PageSize) (size / PageSize)
          KMemoryState.canMapProcess (fun _ => true) (fun a => a == 0) = true
      ∧ allIdx (dst / PageSize) (size / PageSize)
          (fun i => match (s.getPT s.curId).pages i with
            | some info => info.state == KMemoryState.SharedCode
            | none => false) = true
      ∧ blockIdx (dst / PageSize) (size / PageSize) (s.getPT s.curId)
          = blockIdx (src / PageSize) (size / PageSize) (s.getPT pid)
      ∧ s2 = (s.setPT s.curId (clearRange (s.getPT s.curId) (dst / PageSize)
              (size / PageSize))).withRefs
          (fun b => s.refs b -
            (blockIdx (dst / PageSize) (size / PageSize) (s.getPT s.curId)).count b) := by
  unfold UnmapProcessMemory at hm
  repeat' split at hm
  all_goals (
    injection hm with h1 h2
    first
      | exact Result.noConfusion h1
      | exact absurd h1 (by assumption)
      | skip)
  rename_i hd hsrc hsz hpos hod hos x2 pid heqRes hCont hCanC x1 pt2 refs2 heqU
  simp only [KPageTable.unmapProcessMemory] at heqU
  split at heqU
  case isTrue hOC =>
    split at heqU
    case isTrue hShared =>
      split at heqU
      case isTrue hBlocks =>
        injection heqU with e1 e2
        injection e2 with e2 e3
        subst e2
        subst e3
        exact ⟨pid, heqRes, hd, hsrc, hsz, hpos, hod, hos, hCont, hCanC, hOC, hShared,
          hBlocks, h2.symm⟩
      case isFalse hBlocks =>
        injection heqU with e1 e2
        exact Result.noConfusion e1
    case isFalse hShared =>
      injection heqU with e1 e2
      exact Result.noConfusion e1
  case isFalse hOC =>
    injection heqU with e1 e2
    exact Result.noConfusion e1

theorem MapProcessMemory_success_intro {s : System} {dst h src size pid : Nat}
    (hres : s.GetObjectWithoutPseudoHandle h = some pid)
    (hd : dst % PageSize = 0) (hsrc : src % PageSize = 0) (hsz : size % PageSize = 0)
    (hpos : 0 < size) (hod : dst < wadd dst size) (hos : src < wadd src size)
    (hCont : (s.getPT pid).Contains src size = true)
    (hCanC : (s.getPT s.curId).CanContain dst size KMemoryState.SharedCode = true)
    (hOC : (s.getPT pid).openCheck (src / PageSize) (size / PageSize)
        KMemoryState.canMapProcess (fun _ => true) (fun a => a == 0) = true)
    (hFree : allIdx (dst / PageSize) (size / PageSize)
        (fun i => ((s.getPT s.curId).pages i).isNone) = true) :
    MapProcessMemory s dst h src size
      = (Result.Success, (s.setPT s.curId (installPG (s.getPT s.curId) (dst / PageSize)
            (size / PageSize) (blockIdx (src / PageSize) (size / PageSize) (s.getPT pid))
            KMemoryState.SharedCode KMemoryPermission.UserReadWrite)).withRefs
          (fun b => s.refs b +
            (blockIdx (src / PageSize) (size / PageSize) (s.getPT pid)).count b)) := by
  have hdvd : PageSize ∣ size := Nat.dvd_of_mod_eq_zero hsz
  have heqM : (s.getPT pid).makeAndOpenPageGroup src (size / PageSize)
      KMemoryState.canMapProcess (fun _ => true) (fun a => a == 0) s.refs
      = (Result.Success, blockIdx (src / PageSize) (size / PageSize) (s.getPT pid),
          fun b => s.refs b +
            (blockIdx (src / PageSize) (size / PageSize) (s.getPT pid)).count b) := by
    simp only [KPageTable.makeAndOpenPageGroup, hOC, if_true]
  have heqG : (s.getPT s.curId).mapPageGroup dst
      (blockIdx (src / PageSize) (size / PageSize) (s.getPT pid))
      KMemoryState.SharedCode KMemoryPermission.UserReadWrite
      = (Result.Success, installPG (s.getPT s.curId) (dst / PageSize) (size / PageSize)
          (blockIdx (src / PageSize) (size / PageSize) (s.getPT pid))
          KMemoryState.SharedCode KMemoryPermission.UserReadWrite) := by
    simp only [KPageTable.mapPageGroup, blockIdx_length, Nat.div_mul_cancel hdvd, hCanC,
      hFree, if_true]
  simp only [MapProcessMemory, hd, hsrc, hsz, hpos, hod, hos, hres, hCont, hCanC, heqM, heqG,
    if_true]

theorem UnmapProcessMemory_success_intro {s : System} {dst h src size pid : Nat}
    (hres : s.GetObjectWithoutPseudoHandle h = some pid)
    (hd : dst % PageSize = 0) (hsrc : src % PageSize = 0) (hsz : size % PageSize = 0)
    (hpos : 0 < size) (hod : dst < wadd dst size) (hos : src < wadd src size)
    (hCont : (s.getPT pid).Contains src size = true)
    (hCanC : (s.getPT s.curId).CanContain dst size KMemoryState.SharedCode = true)
    (hOC : (s.getPT pid).openCheck (src / PageSize) (size / PageSize)
        KMemoryState.canMapProcess (fun _ => true) (fun a => a == 0) = true)
    (hShared : allIdx (dst / PageSize) (size / PageSize)
        (fun i => match (s.getPT s.curId).pages i with
          | some info => info.state == KMemoryState.SharedCode
          | none => false) = true)
    (hBlocks : blockIdx (dst / PageSize) (size / PageSize) (s.getPT s.curId)
        = blockIdx (src / PageSize) (size / PageSize) (s.getPT pid)) :
    UnmapProcessMemory s dst h src size
      = (Result.Success, (s.setPT s.curId (clearRange (s.getPT s.curId) (dst / PageSize)
            (size / PageSize))).withRefs
          (fun b => s.refs b -
            (blockIdx (dst / PageSize) (size / PageSize) (s.getPT s.curId)).count b)) := by
  have heqU : (s.getPT s.curId).unmapProcessMemory dst size (s.getPT pid) src s.refs
      = (Result.Success, clearRange (s.getPT s.curId) (dst / PageSize) (size / PageSize),
          fun b => s.refs b -
            (blockIdx (dst / PageSize) (size / PageSize) (s.getPT s.curId)).count b) := by
    simp only [KPageTable.unmapProcessMemory, hOC, hShared, hBlocks, if_true]
  simp only [UnmapProcessMemory, hd, hsrc, hsz, hpos, hod, hos, hres, hCont, hCanC, heqU,
    if_true]


/-- C2 (amended): UnmapProcessMemory succeeds only on a destination range
for which CanContain(dst_address, size, SharedCode) holds, where CanContain
tests that the range lies within the sub-region permitted to host the
state (the amendment drops the spec clause that the range must also be
free, which would contradict the unmap contract); when CanContain is false
it returns InvalidMemoryRegion, and success additionally requires the
destination range to be currently mapped as SharedCode with backing
physically matching what the source page table produces for src_address. -/
theorem C2_unmap_success_conditions (s : System) (dst h src size pid : Nat)
    (hpid : s.GetObjectWithoutPseudoHandle h = some pid)
    (h1 : dst % PageSize = 0) (h2 : src % PageSize = 0) (h3 : size % PageSize = 0) (h4 : 0 < size)
    (h5 : dst < wadd dst size) (h6 : src < wadd src size)
    (hcont : (s.getPT pid).Contains src size = true) :
    ((UnmapProcessMemory s dst h src size).1 = Result.Success →
        (s.getPT s.curId).CanContain dst size KMemoryState.SharedCode = true
        ∧ allIdx (dst / PageSize) (size / PageSize)
            (fun i => match (s.getPT s.curId).pages i with
              | some info => info.state == KMemoryState.SharedCode
              | none => false) = true
        ∧ shareBlocks (s.getPT pid) src size
            = some (blockIdx (dst / PageSize) (size / PageSize) (s.getPT s.curId)))
    ∧ ((s.getPT s.curId).CanContain dst size KMemoryState.SharedCode = false →
        (UnmapProcessMemory s dst h src size).1 = Result.InvalidMemoryRegion) := by
  constructor
  · intro hS
    have hm : UnmapProcessMemory s dst h src size
        = (Result.Success, (UnmapProcessMemory s dst h src size).2) := by
      rw [← hS]
    obtain ⟨pid2, hres2, _, _, _, _, _, _, _, hCanC, hOC, hShared, hBlocks, _⟩ :=
      UnmapProcessMemory_success_spec hm
    rw [hpid] at hres2
    injection hres2 with hpe
    subst hpe
    refine ⟨hCanC, hShared, ?_⟩
    unfold shareBlocks
    rw [if_pos hOC, hBlocks]
  · intro hcc
    simp [UnmapProcessMemory, h1, h2, h3, h4, h5, h6, hpid, hcont, hcc]

/-- C2 counterexample: right after a successful MapProcessMemory the
destination is mapped, so the literal spec reading of CanContain (range
free and in the band) is false there, yet UnmapProcessMemory succeeds:
success does not imply the claim literal CanContain. -/
theorem C2_counterexample :
    (UnmapProcessMemory (MapProcessMemory exampleSys 0x10000 5 0x1000 0x1000).2
        0x10000 5 0x1000 0x1000).1 = Result.Success
    ∧ ((MapProcessMemory exampleSys 0x10000 5 0x1000 0x1000).2.getPT
        (MapProcessMemory exampleSys 0x10000 5 0x1000 0x1000).2.curId).CanContainFreeSpec
        0x10000 0x1000 KMemoryState.SharedCode = false := by decide

/-- C2 witness: the amended theorem applied at a destination outside the
shared-code band, returning InvalidMemoryRegion. -/
theorem C2_witness :
    (UnmapProcessMemory exampleSys 0x40000 5 0x1000 0x1000).1 = Result.InvalidMemoryRegion := by
  have h := C2_unmap_success_conditions exampleSys 0x40000 5 0x1000 0x1000 1 (by decide)
      (by decide) (by decide) (by decide) (by decide) (by decide) (by decide) (by decide)
  exact h.2 (by decide)


theorem permRewrite_isSome {pt : KPageTable} {pf : KMemoryPermission → KMemoryPermission}
    {i : Nat} : ((permRewrite pt pf).pages i).isSome = (pt.pages i).isSome := by
  cases h : pt.pages i <;> simp [permRewrite, h]

theorem permRewrite_isNone {pt : KPageTable} {pf : KMemoryPermission → KMemoryPermission}
    {i : Nat} : ((permRewrite pt pf).pages i).isNone = (pt.pages i).isNone := by
  cases h : pt.pages i <;> simp [permRewrite, h]

theorem permRewrite_blockAt {pt : KPageTable} {pf : KMemoryPermission → KMemoryPermission}
    {i : Nat} : blockAt (permRewrite pt pf) i = blockAt pt i := by
  cases h : pt.pages i <;> simp [blockAt, permRewrite, h]

theorem permRewrite_blockIdx {pt : KPageTable} {pf : KMemoryPermission → KMemoryPermission}
    {base n : Nat} : blockIdx base n (permRewrite pt pf) = blockIdx base n pt := by
  rw [blockIdx_eq_iff]
  intro k _
  exact permRewrite_blockAt

theorem permRewrite_openCheck {pt : KPageTable} {pf : KMemoryPermission → KMemoryPermission}
    {base n : Nat} {sOk : KMemoryState → Bool} {aOk : Nat → Bool} :
    (permRewrite pt pf).openCheck base n sOk (fun _ => true) aOk
      = pt.openCheck base n sOk (fun _ => true) aOk := by
  unfold KPageTable.openCheck
  apply allIdx_congr
  intro k hk
  cases h : pt.pages (base + k) <;> simp [permRewrite, h]

theorem permRewrite_Contains {pt : KPageTable} {pf : KMemoryPermission → KMemoryPermission}
    {a sz : Nat} : (permRewrite pt pf).Contains a sz = pt.Contains a sz := by
  unfold KPageTable.Contains
  have h : allIdx (a / PageSize) (sz / PageSize)
      (fun i => ((permRewrite pt pf).pages i).isSome)
      = allIdx (a / PageSize) (sz / PageSize) (fun i => (pt.pages i).isSome) :=
    allIdx_congr (fun _ _ => permRewrite_isSome)
  rw [h]
  rfl

theorem permRewrite_isNone_all {pt : KPageTable} {pf : KMemoryPermission → KMemoryPermission}
    {base n : Nat} :
    allIdx base n (fun i => ((permRewrite pt pf).pages i).isNone)
      = allIdx base n (fun i => (pt.pages i).isNone) :=
  allIdx_congr (fun _ _ => permRewrite_isNone)

theorem gow_setPT {s : System} {p2 hh pid : Nat} {pt : KPageTable}
    (h : s.GetObjectWithoutPseudoHandle hh = some pid) :
    (s.setPT p2 pt).GetObjectWithoutPseudoHandle hh = some pid := by
  unfold System.GetObjectWithoutPseudoHandle at h ⊢
  split at h
  · exact absurd h (by simp)
  · next hps =>
    rw [if_neg hps]
    unfold System.rawLookup at h ⊢
    show (match s.handles hh with
      | some pid => if (if pid = p2 then some pt else s.procs pid).isSome then some pid else none
      | none => none) = some pid
    cases hhs : s.handles hh with
    | none =>
      rw [hhs] at h
      exact absurd h (by simp)
    | some pid0 =>
      rw [hhs] at h
      simp only at h
      split at h
      · cases h
        by_cases hp2 : pid = p2
        · simp [hp2]
        · next hso => simp [hp2, hso]
      · exact absurd h (by simp)


theorem permRewrite_CanContain {pt : KPageTable} {pf : KMemoryPermission → KMemoryPermission}
    {a sz : Nat} {st : KMemoryState} :
    (permRewrite pt pf).CanContain a sz st = pt.CanContain a sz st := rfl

/-- C10 (confirmed): after every successful MapProcessMemory the destination
range is mapped with state SharedCode and permission UserReadWrite; every
source page is process-mappable with the unborrowed attribute value; and the
source permissions are not constrained: rewriting them arbitrarily leaves
the call successful (the scan runs with permission test mask None). -/
theorem C10_mapped_shared_readwrite (s : System) (dst h src size : Nat) (s2 : System) (pid : Nat)
    (hm : MapProcessMemory s dst h src size = (Result.Success, s2))
    (hpid : s.GetObjectWithoutPseudoHandle h = some pid) :
    (∀ k, k < size / PageSize →
        (s2.getPT s.curId).pages (dst / PageSize + k)
          = some ⟨KMemoryState.SharedCode, KMemoryPermission.UserReadWrite, 0,
              blockAt (s.getPT pid) (src / PageSize + k)⟩)
    ∧ (∀ k, k < size / PageSize →
        ∃ info, (s.getPT pid).pages (src / PageSize + k) = some info
          ∧ info.state.canMapProcess = true ∧ info.attr = 0)
    ∧ ∀ pf, (MapProcessMemory (s.setPT pid (permRewrite (s.getPT pid) pf)) dst h src size).1
        = Result.Success := by
  obtain ⟨pid2, hres2, hd, hsrc, hsz, hpos, hod, hos, hCont, hCanC, hOC, hFree, hs2⟩ :=
    MapProcessMemory_success_spec hm
  rw [hpid] at hres2
  injection hres2 with hpe
  subst hpe
  refine ⟨?_, ?_, ?_⟩
  · intro k hk
    rw [hs2, getPT_withRefs, getPT_setPT_self,
      installPG_pages_in (Nat.le_add_right _ k) (by omega)]
    rw [Nat.add_sub_cancel_left, blockIdx_getD hk]
  · intro k hk
    have h1 := allIdx_eq.mp hOC k hk
    simp only at h1
    cases hpg : (s.getPT pid).pages (src / PageSize + k) with
    | none =>
      rw [hpg] at h1
      exact absurd h1 (by simp)
    | some info =>
      rw [hpg] at h1
      simp only [Bool.and_eq_true] at h1
      refine ⟨info, rfl, h1.1.1, ?_⟩
      simpa using h1.2
  · intro pf
    have hres2 : (s.setPT pid (permRewrite (s.getPT pid) pf)).GetObjectWithoutPseudoHandle h
        = some pid := gow_setPT hpid
    have hCont2 : ((s.setPT pid (permRewrite (s.getPT pid) pf)).getPT pid).Contains src size
        = true := by
      rw [getPT_setPT_self, permRewrite_Contains]
      exact hCont
    by_cases hc : pid = s.curId
    · have hCanC2 : ((s.setPT pid (permRewrite (s.getPT pid) pf)).getPT
          (s.setPT pid (permRewrite (s.getPT pid) pf)).curId).CanContain dst size
          KMemoryState.SharedCode = true := by
        rw [curId_setPT, ← hc, getPT_setPT_self, permRewrite_CanContain, hc]
        exact hCanC
      have hOC2 : ((s.setPT pid (permRewrite (s.getPT pid) pf)).getPT pid).openCheck
          (src / PageSize) (size / PageSize) KMemoryState.canMapProcess (fun _ => true)
          (fun a => a == 0) = true := by
        rw [getPT_setPT_self, permRewrite_openCheck]
        exact hOC
      have hFree2 : allIdx (dst / PageSize) (size / PageSize)
          (fun i => (((s.setPT pid (permRewrite (s.getPT pid) pf)).getPT
            (s.setPT pid (permRewrite (s.getPT pid) pf)).curId).pages i).isNone) = true := by
        rw [curId_setPT, ← hc, getPT_setPT_self, permRewrite_isNone_all, hc]
        exact hFree
      rw [MapProcessMemory_success_intro hres2 hd hsrc hsz hpos hod hos hCont2 hCanC2 hOC2
        hFree2]
    · have hcq : s.curId ≠ pid := fun hq => hc hq.symm
      have hCanC2 : ((s.setPT pid (permRewrite (s.getPT pid) pf)).getPT
          (s.setPT pid (permRewrite (s.getPT pid) pf)).curId).CanContain dst size
          KMemoryState.SharedCode = true := by
        rw [curId_setPT, getPT_setPT_other hcq]
        exact hCanC
      have hOC2 : ((s.setPT pid (permRewrite (s.getPT pid) pf)).getPT pid).openCheck
          (src / PageSize) (size / PageSize) KMemoryState.canMapProcess (fun _ => true)
          (fun a => a == 0) = true := by
        rw [getPT_setPT_self, permRewrite_openCheck]
        exact hOC
      have hFree2 : allIdx (dst / PageSize) (size / PageSize)
          (fun i => (((s.setPT pid (permRewrite (s.getPT pid) pf)).getPT
            (s.setPT pid (permRewrite (s.getPT pid) pf)).curId).pages i).isNone) = true := by
        rw [curId_setPT, getPT_setPT_other hcq]
        exact hFree
      rw [MapProcessMemory_success_intro hres2 hd hsrc hsz hpos hod hos hCont2 hCanC2 hOC2
        hFree2]

/-- C10 witness: the concrete map of the scenarios installs SharedCode
UserReadWrite at the first destination page, backed by the source block. -/
theorem C10_witness :
    ((MapProcessMemory exampleSys 0x10000 5 0x1000 0x1000).2.getPT exampleSys.curId).pages
        (0x10000 / PageSize + 0)
      = some ⟨KMemoryState.SharedCode, KMemoryPermission.UserReadWrite, 0,
          blockAt (exampleSys.getPT 1) (0x1000 / PageSize + 0)⟩ := by
  have hm : MapProcessMemory exampleSys 0x10000 5 0x1000 0x1000
      = (Result.Success, (MapProcessMemory exampleSys 0x10000 5 0x1000 0x1000).2) := by
    rw [← show (MapProcessMemory exampleSys 0x10000 5 0x1000 0x1000).1 = Result.Success
      from by decide]
  exact (C10_mapped_shared_readwrite exampleSys 0x10000 5 0x1000 0x1000
    (MapProcessMemory exampleSys 0x10000 5 0x1000 0x1000).2 1 hm (by decide)).1 0 (by decide)


theorem pageTableExtAll {pt1 pt2 : KPageTable}
    (h1 : pt1.asStart = pt2.asStart) (h2 : pt1.asEnd = pt2.asEnd)
    (h3 : pt1.aslrStart = pt2.aslrStart) (h4 : pt1.aslrEnd = pt2.aslrEnd)
    (h5 : pt1.scStart = pt2.scStart) (h6 : pt1.scEnd = pt2.scEnd)
    (h7 : ∀ i, pt1.pages i = pt2.pages i) : pt1 = pt2 := by
  cases pt1
  cases pt2
  simp only [KPageTable.mk.injEq]
  exact ⟨h1, h2, h3, h4, h5, h6, funext h7⟩

theorem Contains_congr_pages {pt1 pt2 : KPageTable} {a sz : Nat}
    (hb1 : pt1.asStart = pt2.asStart) (hb2 : pt1.asEnd = pt2.asEnd)
    (hp : ∀ k, k < sz / PageSize → pt1.pages (a / PageSize + k) = pt2.pages (a / PageSize + k)) :
    pt1.Contains a sz = pt2.Contains a sz := by
  unfold KPageTable.Contains
  rw [hb1, hb2, show (allIdx (a / PageSize) (sz / PageSize) fun i => (pt1.pages i).isSome)
      = allIdx (a / PageSize) (sz / PageSize) fun i => (pt2.pages i).isSome from
    allIdx_congr (fun k hk => by rw [hp k hk])]

theorem openCheck_congr_pages {pt1 pt2 : KPageTable} {base n : Nat}
    {sOk : KMemoryState → Bool} {pOk : KMemoryPermission → Bool} {aOk : Nat → Bool}
    (hp : ∀ k, k < n → pt1.pages (base + k) = pt2.pages (base + k)) :
    pt1.openCheck base n sOk pOk aOk = pt2.openCheck base n sOk pOk aOk := by
  unfold KPageTable.openCheck
  exact allIdx_congr (fun k hk => by rw [hp k hk])

theorem openCheck_isNone_disjoint {pt : KPageTable} {srcB dstB n : Nat}
    {sOk : KMemoryState → Bool} {pOk : KMemoryPermission → Bool} {aOk : Nat → Bool}
    (hOC : pt.openCheck srcB n sOk pOk aOk = true)
    (hFree : allIdx dstB n (fun i => (pt.pages i).isNone) = true) :
    ∀ k, k < n → ¬ (dstB ≤ srcB + k ∧ srcB + k < dstB + n) := by
  intro k hk hin
  have h1 := allIdx_eq.mp hOC k hk
  have h2 := allIdx_eq.mp hFree (srcB + k - dstB) (by omega)
  have he : dstB + (srcB + k - dstB) = srcB + k := by omega
  rw [he] at h2
  have h2b : (pt.pages (srcB + k)).isNone = true := h2
  rw [Option.isNone_iff_eq_none] at h2b
  have h1b : (match pt.pages (srcB + k) with
    | some info => sOk info.state && pOk info.perm && aOk info.attr
    | none => false) = true := h1
  rw [h2b] at h1b
  simp at h1b

theorem openCheck_notin_install {pt : KPageTable} {dstB n : Nat} {M : List Nat}
    {b2 n2 : Nat} {pOk : KMemoryPermission → Bool} {aOk : Nat → Bool}
    (hOC : (installPG pt dstB n M KMemoryState.SharedCode
        KMemoryPermission.UserReadWrite).openCheck b2 n2
        KMemoryState.canMapProcess pOk aOk = true) :
    ∀ k, k < n2 → ¬ (dstB ≤ b2 + k ∧ b2 + k < dstB + n) := by
  intro k hk hin
  have h1 := allIdx_eq.mp hOC k hk
  have h1b : (match (installPG pt dstB n M KMemoryState.SharedCode
      KMemoryPermission.UserReadWrite).pages (b2 + k) with
    | some info => KMemoryState.canMapProcess info.state && pOk info.perm && aOk info.attr
    | none => false) = true := h1
  rw [installPG_pages_in hin.1 hin.2] at h1b
  simp [KMemoryState.canMapProcess] at h1b

theorem blockIdx_installPG_self {pt : KPageTable} {dstB n : Nat} {M : List Nat}
    {st : KMemoryState} {perm : KMemoryPermission} (hlen : M.length = n) :
    blockIdx dstB n (installPG pt dstB n M st perm) = M := by
  apply List.ext_getElem (by simp [blockIdx, hlen])
  intro i h1 h2
  have h1n : i < n := by simpa [blockIdx] using h1
  simp only [blockIdx, List.getElem_map, List.getElem_range]
  rw [blockAt, installPG_pages_in (Nat.le_add_right _ _) (by omega)]
  simp only [Nat.add_sub_cancel_left]
  rw [List.getD_eq_getElem M 0 (by omega)]


theorem Contains_congr_pages2 (pt1 pt2 : KPageTable) {a sz : Nat}
    (hb1 : pt1.asStart = pt2.asStart) (hb2 : pt1.asEnd = pt2.asEnd)
    (hp : ∀ k, k < sz / PageSize → pt1.pages (a / PageSize + k) = pt2.pages (a / PageSize + k)) :
    pt1.Contains a sz = pt2.Contains a sz := Contains_congr_pages hb1 hb2 hp

/-- C1 (amended): whenever MapProcessMemory succeeds, an immediately
following UnmapProcessMemory with identical arguments succeeds and restores
the entire system, destination address space and block reference counts
included, to its pre-map state; and UnmapProcessMemory with any source
address for which the source page table produces a physical backing
different from that of src_address fails.  The amendment: the claim demands
failure for EVERY src_address2 different from src_address, but when the
source address space aliases the same physical blocks at two addresses,
unmapping through the aliased address passes the backing-identity check and
succeeds, so failure is guaranteed exactly when the produced backing
differs. -/
theorem C1_roundtrip (s : System) (dst h src size : Nat) (s2 : System) (pid : Nat)
    (hm : MapProcessMemory s dst h src size = (Result.Success, s2))
    (hpid : s.GetObjectWithoutPseudoHandle h = some pid) :
    (UnmapProcessMemory s2 dst h src size).1 = Result.Success
    ∧ (UnmapProcessMemory s2 dst h src size).2 = s
    ∧ ∀ src2, shareBlocks (s.getPT pid) src2 size ≠ shareBlocks (s.getPT pid) src size →
        (UnmapProcessMemory s2 dst h src2 size).1 ≠ Result.Success := by
  obtain ⟨pid2, hres2, hd, hsrc, hsz, hpos, hod, hos, hCont, hCanC, hOC, hFree, hs2⟩ :=
    MapProcessMemory_success_spec hm
  rw [hpid] at hres2
  injection hres2 with hpe
  subst hpe
  subst hs2
  set n := size / PageSize with hn
  set dstB := dst / PageSize with hdstB
  set srcB := src / PageSize with hsrcB
  set old := s.getPT s.curId with hold
  set srcPT := s.getPT pid with hsrcPT
  set M := blockIdx srcB n srcPT with hM
  set PT2 := installPG old dstB n M KMemoryState.SharedCode KMemoryPermission.UserReadWrite
    with hPT2
  set R1 := (fun b => s.refs b + M.count b) with hR1
  set S2 := (s.setPT s.curId PT2).withRefs R1 with hS2
  have hlenM : M.length = n := by rw [hM]; exact blockIdx_length
  have hBM : blockIdx dstB n PT2 = M := by rw [hPT2]; exact blockIdx_installPG_self hlenM
  have hres3 : S2.GetObjectWithoutPseudoHandle h = some pid := by
    rw [hS2]; exact gow_update hpid
  have hcur : S2.curId = s.curId := rfl
  have hgetCur : S2.getPT s.curId = PT2 := by
    rw [hS2, getPT_withRefs, getPT_setPT_self]
  have hPT2in : ∀ k, k < n → PT2.pages (dstB + k)
      = some ⟨KMemoryState.SharedCode, KMemoryPermission.UserReadWrite, 0, M.getD k 0⟩ := by
    intro k hk
    rw [hPT2, installPG_pages_in (Nat.le_add_right _ _) (by omega), Nat.add_sub_cancel_left]
  have hPT2out : ∀ i, ¬ (dstB ≤ i ∧ i < dstB + n) → PT2.pages i = old.pages i := by
    intro i hi
    rw [hPT2]
    exact installPG_pages_out hi
  have hShared2 : allIdx dstB n (fun i => match PT2.pages i with
      | some info => info.state == KMemoryState.SharedCode
      | none => false) = true := by
    rw [allIdx_eq]
    intro k hk
    have hb : (match PT2.pages (dstB + k) with
      | some info => info.state == KMemoryState.SharedCode
      | none => false) = true := by
      rw [hPT2in k hk]
      rfl
    exact hb
  have hprocsCur : s.procs s.curId = some old := procs_curId_of_CanContain hpos hCanC
  have hmain : (S2.getPT pid).Contains src size = true
      ∧ (S2.getPT S2.curId).CanContain dst size KMemoryState.SharedCode = true
      ∧ (S2.getPT pid).openCheck srcB n KMemoryState.canMapProcess (fun _ => true)
          (fun a => a == 0) = true
      ∧ allIdx dstB n (fun i => match (S2.getPT S2.curId).pages i with
          | some info => info.state == KMemoryState.SharedCode
          | none => false) = true
      ∧ blockIdx dstB n (S2.getPT S2.curId) = blockIdx srcB n (S2.getPT pid) := by
    have hCanC2 : (S2.getPT S2.curId).CanContain dst size KMemoryState.SharedCode = true := by
      rw [hcur, hgetCur, hPT2, CanContain_installPG]
      exact hCanC
    have hShared3 : allIdx dstB n (fun i => match (S2.getPT S2.curId).pages i with
        | some info => info.state == KMemoryState.SharedCode
        | none => false) = true := by
      rw [hcur, hgetCur]
      exact hShared2
    by_cases hcq : pid = s.curId
    · have hso : srcPT = old := by rw [hsrcPT, hold, hcq]
      have hgetPid2 : S2.getPT pid = PT2 := by rw [hcq]; exact hgetCur
      have hOCold : old.openCheck srcB n KMemoryState.canMapProcess (fun _ => true)
          (fun a => a == 0) = true := by rw [← hso]; exact hOC
      have hDisj : ∀ k, k < n → ¬ (dstB ≤ srcB + k ∧ srcB + k < dstB + n) :=
        openCheck_isNone_disjoint hOCold hFree
      have hAg : ∀ k, k < n → PT2.pages (srcB + k) = old.pages (srcB + k) := by
        intro k hk
        exact hPT2out _ (hDisj k hk)
      refine ⟨?_, hCanC2, ?_, hShared3, ?_⟩
      · rw [hgetPid2, Contains_congr_pages2 PT2 old rfl rfl hAg, ← hso]
        exact hCont
      · rw [hgetPid2, openCheck_congr_pages hAg, ← hso]
        exact hOC
      · rw [hcur, hgetCur, hgetPid2, hBM, blockIdx_congr hAg, ← hso]
    · have hgetPid : S2.getPT pid = srcPT := by
        rw [hS2, getPT_withRefs, getPT_setPT_other hcq]
      refine ⟨?_, hCanC2, ?_, hShared3, ?_⟩
      · rw [hgetPid]
        exact hCont
      · rw [hgetPid]
        exact hOC
      · rw [hcur, hgetCur, hgetPid, hBM]
  obtain ⟨hCont2, hCanC2, hOC2, hShared3, hBlocks2⟩ := hmain
  have hUn := UnmapProcessMemory_success_intro hres3 hd hsrc hsz hpos hod hos hCont2 hCanC2
    hOC2 hShared3 hBlocks2
  rw [← hn, ← hdstB] at hUn
  refine ⟨?_, ?_, ?_⟩
  · rw [hUn]
  · rw [hUn, hcur, hgetCur, hBM]
    have hclr : clearRange PT2 dstB n = old := by
      apply pageTableExtAll
      case h1 => rfl
      case h2 => rfl
      case h3 => rfl
      case h4 => rfl
      case h5 => rfl
      case h6 => rfl
      intro i
      by_cases hi : dstB ≤ i ∧ i < dstB + n
      · rw [clearRange_pages_in hi.1 hi.2]
        have h2 := allIdx_eq.mp hFree (i - dstB) (by omega)
        have h2b : (old.pages (dstB + (i - dstB))).isNone = true := h2
        rw [show dstB + (i - dstB) = i from by omega] at h2b
        rw [Option.isNone_iff_eq_none] at h2b
        exact h2b.symm
      · rw [clearRange_pages_out hi]
        exact hPT2out i hi
    rw [hclr]
    apply systemExtAll
    · rfl
    · intro q
      show (if q = s.curId then some old else S2.procs q) = s.procs q
      by_cases hq : q = s.curId
      · rw [if_pos hq, hq]
        exact hprocsCur.symm
      · rw [if_neg hq]
        show (if q = s.curId then some PT2 else s.procs q) = s.procs q
        rw [if_neg hq]
    · intro q
      rfl
    · intro b
      show R1 b - M.count b = s.refs b
      show s.refs b + M.count b - M.count b = s.refs b
      omega
  · intro src2 hdiff hS
    have hm2 : UnmapProcessMemory S2 dst h src2 size
        = (Result.Success, (UnmapProcessMemory S2 dst h src2 size).2) := by
      rw [← hS]
    obtain ⟨pid3, hres4, _, _, _, _, _, _, _, _, hOC3, _, hBlocks3, _⟩ :=
      UnmapProcessMemory_success_spec hm2
    rw [hres3] at hres4
    injection hres4 with hpe2
    subst hpe2
    rw [← hn] at hOC3 hBlocks3
    rw [← hdstB] at hBlocks3
    rw [hcur, hgetCur, hBM] at hBlocks3
    apply hdiff
    unfold shareBlocks
    rw [← hn, ← hsrcB]
    by_cases hcq : pid = s.curId
    · have hgetPid2 : S2.getPT pid = PT2 := by rw [hcq]; exact hgetCur
      have hso : srcPT = old := by rw [hsrcPT, hold, hcq]
      rw [hgetPid2] at hOC3 hBlocks3
      have hOC3i := hOC3
      rw [hPT2] at hOC3i
      have hnotin := openCheck_notin_install hOC3i
      have hAg2 : ∀ k, k < n →
          PT2.pages (src2 / PageSize + k) = old.pages (src2 / PageSize + k) := by
        intro k hk
        exact hPT2out _ (hnotin k hk)
      rw [openCheck_congr_pages hAg2] at hOC3
      rw [blockIdx_congr hAg2] at hBlocks3
      have hOCold : old.openCheck srcB n KMemoryState.canMapProcess (fun _ => true)
          (fun a => a == 0) = true := by rw [← hso]; exact hOC
      rw [hso, if_pos hOC3, if_pos hOCold, ← hBlocks3, hM, hso]
    · have hgetPid : S2.getPT pid = srcPT := by
        rw [hS2, getPT_withRefs, getPT_setPT_other hcq]
      rw [hgetPid] at hOC3 hBlocks3
      rw [if_pos hOC3, if_pos hOC, ← hBlocks3, hM]

/-- C1 counterexample: the source maps pages 0x1000 and 0x2000 to the same
physical block; after mapping src 0x1000, unmapping with the different
source address 0x2000 succeeds instead of failing as the claim demands. -/
theorem C1_counterexample :
    (MapProcessMemory exampleSys 0x10000 5 0x1000 0x1000).1 = Result.Success
    ∧ (0x2000 : Nat) ≠ 0x1000
    ∧ (UnmapProcessMemory (MapProcessMemory exampleSys 0x10000 5 0x1000 0x1000).2
        0x10000 5 0x2000 0x1000).1 = Result.Success := by decide

/-- C1 witness: the amended theorem at the concrete scenario: the identical
round trip succeeds and restores the initial system, and unmapping via
source address 0x3000, whose backing block differs, fails. -/
theorem C1_witness :
    (UnmapProcessMemory (MapProcessMemory exampleSys 0x10000 5 0x1000 0x1000).2
        0x10000 5 0x1000 0x1000).1 = Result.Success
    ∧ (UnmapProcessMemory (MapProcessMemory exampleSys 0x10000 5 0x1000 0x1000).2
        0x10000 5 0x1000 0x1000).2 = exampleSys
    ∧ (UnmapProcessMemory (MapProcessMemory exampleSys 0x10000 5 0x1000 0x1000).2
        0x10000 5 0x3000 0x1000).1 ≠ Result.Success := by
  have hm : MapProcessMemory exampleSys 0x10000 5 0x1000 0x1000
      = (Result.Success, (MapProcessMemory exampleSys 0x10000 5 0x1000 0x1000).2) := by
    rw [← show (MapProcessMemory exampleSys 0x10000 5 0x1000 0x1000).1 = Result.Success
      from by decide]
  have h := C1_roundtrip exampleSys 0x10000 5 0x1000 0x1000
      (MapProcessMemory exampleSys 0x10000 5 0x1000 0x1000).2 1 hm (by decide)
  exact ⟨h.1, h.2.1, h.2.2 0x3000 (by decide)⟩


end Kern
